import Mathlib

/-!
Verification of the job-event reconciliation and real-time fan-out subsystem
of the api-gateway service.

The embedding models:
* heterogeneous decoded event payloads as a JSON-like tree `Val`
  (Python `None` is `Val.null`, `datetime` objects are `Val.time`);
* MongoDB documents as association lists `Doc = List (String × Val)`
  (Python dicts preserve insertion order and have unique keys, so an
  association list with first-key lookup is an exact model);
* the jobs collection as `List Doc` in insertion order; `update_one`
  updates the first matching document, `find_one` returns it;
* `datetime.utcnow()` as an explicit `now : Nat` parameter threaded through
  each operation, and `isoformat` as decimal rendering of that number;
* freshly generated `uuid.uuid4()` / `ObjectId()` values as explicit
  string parameters;
* Python truthiness (`if x:`) as `Val.truthy`.
-/

/-- A JSON/BSON-like value, as produced by decoding an event body or stored
in a MongoDB document field.  `null` doubles as Python `None`. -/
inductive Val where
  | null
  | bool (b : Bool)
  | int (i : Int)
  | str (s : String)
  | time (t : Nat)
  | arr (xs : List Val)
  | obj (fields : List (String × Val))

/-- A MongoDB document / Python dict with string keys. -/
abbrev Doc := List (String × Val)

/-- Python truthiness of a value: `None`, `False`, `0`, `""`, `[]` and
an empty dict are falsy, everything else (including any datetime) is truthy. -/
def Val.truthy : Val → Bool
  | .null => false
  | .bool b => b
  | .int i => i != 0
  | .str s => s ≠ ""
  | .time _ => true
  | .arr xs => !xs.isEmpty
  | .obj fs => !fs.isEmpty

/-- `isinstance(v, dict)`. -/
def Val.isObj : Val → Bool
  | .obj _ => true
  | _ => false

/-- `isinstance(v, str)`. -/
def Val.isStr : Val → Bool
  | .str _ => true
  | _ => false

/-- First-match association-list lookup (Python dict indexing/`in`;
dict keys are unique so first match is the match). -/
def alistGet {α : Type} (k : String) : List (String × α) → Option α
  | [] => none
  | (k', v) :: t => if k' == k then some v else alistGet k t

/-- Set a key: replace the value at an existing key in place, otherwise
append the binding, exactly like assignment into a Python dict or a
MongoDB `$set` of one field. -/
def alistSet {α : Type} (k : String) (v : α) : List (String × α) → List (String × α)
  | [] => [(k, v)]
  | (k', v') :: t => if k' == k then (k, v) :: t else (k', v') :: alistSet k v t

/-- Delete a key (Python `del d[k]`). -/
def alistDel {α : Type} (k : String) : List (String × α) → List (String × α)
  | [] => []
  | (k', v') :: t => if k' == k then t else (k', v') :: alistDel k t

/-- `d.get(k, default)` on a dict: the stored value when the key is present
(even when that value is `None`), the default otherwise.  The non-dict case
returns the default; every call site in the source is either guarded by
`isinstance(..., dict)` or reached only under hypotheses that make the
receiver a dict. -/
def Val.getD (v : Val) (k : String) (d : Val) : Val :=
  match v with
  | .obj fs => match alistGet k fs with
    | some x => x
    | none => d
  | _ => d

/-- `d.get(k)` on a dict (default `None`). -/
def Val.get (v : Val) (k : String) : Val :=
  v.getD k .null

/-- `k in d` membership test on a dict. -/
def Val.hasKey (v : Val) (k : String) : Bool :=
  match v with
  | .obj fs => (alistGet k fs).isSome
  | _ => false

/-- Python `x or y`: `x` when truthy, else `y`. -/
def pyOr (a b : Val) : Val :=
  if a.truthy then a else b

/-- Python `str(x)` for the scalar values the gateway actually stringifies;
`str` of a list or dict is simplified to a constant marker, which no claim
exercises. -/
def Val.pyStr : Val → String
  | .null => "None"
  | .bool true => "True"
  | .bool false => "False"
  | .int i => toString i
  | .str s => s
  | .time t => toString t
  | .arr _ => "list"
  | .obj _ => "dict"

/-- `datetime.isoformat()`, with timestamps modelled as naturals rendered in
decimal. -/
def isoRender (t : Nat) : String := toString t

mutual

/-- Structural equality of values, used for MongoDB equality filters on
fields holding arbitrary values. -/
def valBeq : Val → Val → Bool
  | .null, .null => true
  | .bool a, .bool b => a == b
  | .int a, .int b => a == b
  | .str a, .str b => a == b
  | .time a, .time b => a == b
  | .arr a, .arr b => valBeqList a b
  | .obj a, .obj b => valBeqFields a b
  | _, _ => false

/-- Elementwise equality of value lists. -/
def valBeqList : List Val → List Val → Bool
  | [], [] => true
  | a :: as, b :: bs => valBeq a b && valBeqList as bs
  | _, _ => false

/-- Fieldwise equality of documents. -/
def valBeqFields : List (String × Val) → List (String × Val) → Bool
  | [], [] => true
  | (k, a) :: as, (l, b) :: bs => k == l && valBeq a b && valBeqFields as bs
  | _, _ => false

end

/-- MongoDB filter `{k: "s"}` against a document: matches when the field is
present and holds exactly that string. -/
def matchStrK (k s : String) (d : Doc) : Bool :=
  match alistGet k d with
  | some (.str t) => t == s
  | _ => false

/-- MongoDB filter `{k: v}` for an arbitrary value. -/
def matchValK (k : String) (v : Val) (d : Doc) : Bool :=
  match alistGet k d with
  | some w => valBeq w v
  | _ => false

/-- First element satisfying the predicate (MongoDB `find_one`). -/
def findFirst {α : Type} (p : α → Bool) : List α → Option α
  | [] => none
  | x :: t => if p x then some x else findFirst p t

/-- MongoDB `update_one`: apply `f` to the first document matching `p`;
the boolean is `matched_count > 0`. -/
def updateFirst (p : Doc → Bool) (f : Doc → Doc) : List Doc → List Doc × Bool
  | [] => ([], false)
  | d :: ds =>
    if p d then (f d :: ds, true)
    else
      let r := updateFirst p f ds
      (d :: r.1, r.2)

/-- Apply a `$set` update document: set each listed field in order. -/
def applyUd (ud : Doc) (d : Doc) : Doc :=
  ud.foldl (fun acc kv => alistSet kv.1 kv.2 acc) d

/-- `bson.ObjectId(s)` succeeds exactly on 24-character hexadecimal strings. -/
def isValidObjectId (s : String) : Bool :=
  s.length == 24 && s.toList.all (fun c => c.isDigit || ('a' ≤ c && c ≤ 'f') || ('A' ≤ c && c ≤ 'F'))

/-!
## Job Store (`database.py`)
-/

/-- The `$set` update document built by `update_job_from_script_ready`
(database.py:303-317): always `status=READY` and a refreshed `updated_at`,
plus the `script` / `voice_data` / `image_data` values of the incoming
event data when those keys are present.  The flat `script_text`,
`audio_url` and `image_urls` keys of `data` are never copied. -/
def scriptReadyUd (data : Doc) (now : Nat) : Doc :=
  let ud : Doc := [("status", Val.str "READY"), ("updated_at", Val.time now)]
  let ud := match alistGet "script" data with
    | some v => ud ++ [("script", v)]
    | none => ud
  let ud := match alistGet "voice_data" data with
    | some v => ud ++ [("voice_data", v)]
    | none => ud
  match alistGet "image_data" data with
  | some v => ud ++ [("image_data", v)]
  | none => ud

/-- The last-resort `collection_id` extracted by
`update_job_from_script_ready` (database.py:374-378): from
`data["script"]["collection_id"]` when `data["script"]` is a dict,
otherwise from the top-level `collection_id` key. -/
def srdCollectionId (data : Doc) : Val :=
  if (match alistGet "script" data with
      | some s => s.isObj
      | none => false) then
    (match alistGet "script" data with
     | some s => s.get "collection_id"
     | none => Val.null)
  else
    match alistGet "collection_id" data with
    | some c => c
    | none => Val.null

/-- `update_job_from_script_ready(job_id, data)` (database.py:288-396):
build the `$set` document, then try to update the first document matched by,
in order, the `job_id` field, the `_id` storage key (only when `job_id`
parses as an ObjectId), the `uuid` field, the `id` field, and finally — only
when a truthy `collection_id` can be extracted from the event — the
`collection_id` field.  Exhausting every strategy logs an error and leaves
the store unchanged. -/
def update_job_from_script_ready (store : List Doc) (job_id : String) (data : Doc) (now : Nat) :
    List Doc :=
  let f := applyUd (scriptReadyUd data now)
  let r1 := updateFirst (matchStrK "job_id" job_id) f store
  if r1.2 then r1.1 else
  let r2 := if isValidObjectId job_id then updateFirst (matchStrK "_id" job_id) f store
            else (store, false)
  if r2.2 then r2.1 else
  let r3 := updateFirst (matchStrK "uuid" job_id) f store
  if r3.2 then r3.1 else
  let r4 := updateFirst (matchStrK "id" job_id) f store
  if r4.2 then r4.1 else
  let cid := srdCollectionId data
  if cid.truthy then (updateFirst (matchValK "collection_id" cid) f store).1
  else store

/-- The `$set` update document of `update_job_status` (database.py:192-199):
`{status, updated_at}` merged (`dict.update`) with the optional extra data. -/
def statusUd (status : String) (data : Option Doc) (now : Nat) : Doc :=
  let ud : Doc := [("status", Val.str status), ("updated_at", Val.time now)]
  match data with
  | some d => d.foldl (fun acc kv => alistSet kv.1 kv.2 acc) ud
  | none => ud

/-- `update_job_status(job_id, status, data)` (database.py:177-235): try the
`job_id` field, then `_id` as ObjectId (skipped when `job_id` is not a valid
ObjectId), then the `id` field.  The `uuid` field is never consulted.  A miss
on all strategies only logs a warning; the store is returned unchanged. -/
def update_job_status (store : List Doc) (job_id : String) (status : String)
    (data : Option Doc) (now : Nat) : List Doc :=
  let f := applyUd (statusUd status data now)
  let r1 := updateFirst (matchStrK "job_id" job_id) f store
  if r1.2 then r1.1 else
  let r2 := if isValidObjectId job_id then updateFirst (matchStrK "_id" job_id) f store
            else (store, false)
  if r2.2 then r2.1 else
  (updateFirst (matchStrK "id" job_id) f store).1

/-- Rewrite a timestamp field to its isoformat string, as `get_job` does for
`created_at` / `updated_at` when the stored value is a datetime. -/
def isoKey (d : Doc) (k : String) : Doc :=
  match alistGet k d with
  | some (.time t) => alistSet k (Val.str (isoRender t)) d
  | _ => d

/-- The caller-facing rendering performed by `get_job` (database.py:272-281):
copy `str(_id)` into `id`, drop `_id`, and render the two timestamps. -/
def renderJob (d : Doc) : Doc :=
  let d := match alistGet "_id" d with
    | some v => alistDel "_id" (alistSet "id" (Val.str v.pyStr) d)
    | none => d
  isoKey (isoKey d "created_at") "updated_at"

/-- `get_job(job_id)` (database.py:237-286): find the first document matched
by the `job_id` field, then `_id` as ObjectId (when valid), then the `uuid`
field, then the `id` field; render the hit for the caller. -/
def get_job (store : List Doc) (job_id : String) : Option Doc :=
  let j := findFirst (matchStrK "job_id" job_id) store
  let j := match j with
    | some d => some d
    | none =>
      if isValidObjectId job_id then findFirst (matchStrK "_id" job_id) store
      else none
  let j := match j with
    | some d => some d
    | none => findFirst (matchStrK "uuid" job_id) store
  let j := match j with
    | some d => some d
    | none => findFirst (matchStrK "id" job_id) store
  j.map renderJob

/-- Value of a key in creation data, `None` when absent (`job_data.get(k)`). -/
def docGetV (d : Doc) (k : String) : Val :=
  match alistGet k d with
  | some v => v
  | none => Val.null

/-- `create_job(job_data)` (database.py:136-175): pick the job id from the
supplied `job_id`, `script_id` or `id` key (first truthy wins), else the
fresh UUID; store the record with both timestamps set to now, status
`PENDING` and a fresh `_id`; return the job id, not the storage key. -/
def create_job (store : List Doc) (job_data : Doc) (now : Nat)
    (freshUuid freshOid : String) : Val × List Doc :=
  let jid0 := pyOr (docGetV job_data "job_id")
      (pyOr (docGetV job_data "script_id") (docGetV job_data "id"))
  let jid := if jid0.truthy then jid0 else Val.str freshUuid
  let job := alistSet "status" (Val.str "PENDING")
      (alistSet "updated_at" (Val.time now)
        (alistSet "created_at" (Val.time now)
          (alistSet "job_id" jid job_data)))
  let job := alistSet "_id" (Val.str freshOid) job
  (jid, store ++ [job])

/-!
## Event Normalizer and consumer callback (`main.py:handle_script_ready`)

The normalization section of the handler can raise (slicing or iterating a
value of the wrong shape); any exception is swallowed by the handler's
catch-all, abandoning the event before any store mutation or publish.  The
partial pieces below return `none` exactly at those raise points.
-/

/-- `script_id` as resolved by `handle_script_ready` (main.py:137-147):
`script._id` when `script` is a dict and the value is truthy, else the
top-level `script_id`. -/
def handlerScriptId (data : Val) : Val :=
  let script_data := data.getD "script" (Val.obj [])
  let s1 := if script_data.isObj then script_data.get "_id" else Val.null
  if s1.truthy then s1 else data.get "script_id"

/-- `collection_id` as resolved by `handle_script_ready` (main.py:140-151):
`script.collection_id` when `script` is a dict and truthy, else the
top-level `collection_id`. -/
def handlerCollectionId (data : Val) : Val :=
  let script_data := data.getD "script" (Val.obj [])
  let c1 := if script_data.isObj then script_data.get "collection_id" else Val.null
  if c1.truthy then c1 else data.get "collection_id"

/-- `job_id` as resolved by `handle_script_ready` (main.py:153-160): the
truthy `script_id` candidate, used verbatim when it is a string of length 36
or containing a hyphen, otherwise coerced with `str(...)`; `None` when no
candidate is truthy.  `collection_id` is never consulted here. -/
def handlerJobId (data : Val) : Val :=
  let sid := handlerScriptId data
  if sid.truthy then
    match sid with
    | .str s =>
      if s.length == 36 || s.toList.contains '-' then .str s else .str (Val.pyStr (.str s))
    | v => .str v.pyStr
  else .null

/-- Iterating a Python value with `for`: lists yield elements, strings yield
one-character strings, dicts yield their keys; anything else raises
(`none`). -/
def Val.elems : Val → Option (List Val)
  | .arr xs => some xs
  | .str s => some (s.toList.map (fun c => Val.str c.toString))
  | .obj fs => some (fs.map (fun p => Val.str p.1))
  | _ => none

/-- `v[:100]` is legal for strings and lists only. -/
def Val.sliceable : Val → Bool
  | .str _ => true
  | .arr _ => true
  | _ => false

/-- `len(v)` is legal for strings, lists and dicts. -/
def Val.hasLen : Val → Bool
  | .str _ => true
  | .arr _ => true
  | .obj _ => true
  | _ => false

/-- Image extraction (main.py:190-204): when `image` is a dict, walk its
`scene_images` collecting `cloudinary_url` (preferred) or `url` of each dict
entry; iterating a non-iterable `scene_images` raises.  When `image` is not
a dict both results are empty. -/
def imagePart (image_data : Val) : Option (List Val × Val) :=
  if image_data.isObj then
    let scene_images := image_data.getD "scene_images" (Val.arr [])
    match scene_images.elems with
    | none => none
    | some imgs =>
      some (imgs.filterMap (fun img =>
        if img.isObj && img.hasKey "cloudinary_url" then some (img.get "cloudinary_url")
        else if img.isObj && img.hasKey "url" then some (img.get "url")
        else none), scene_images)
  else some ([], Val.arr [])

/-- Scene and script-text extraction (main.py:206-224).  The synthesized
single scene is created from `script.script_text` BEFORE the fallback to
`script.content` / top-level `content` / top-level `text` runs, so a text
found only by the fallback never produces a scene.  Raises (`none`) when
`script` is not a dict, or when the text is not sliceable or the scenes
value has no `len`. -/
def sceneTextPart (script_data data : Val) (job_id : String) : Option (Val × Val) :=
  if !script_data.isObj then none
  else
    let scenes0 := script_data.getD "scenes" (Val.arr [])
    let st0 := script_data.getD "script_text" (Val.str "")
    if !st0.sliceable then none
    else if !scenes0.hasLen then none
    else
      let scenes1 :=
        if !scenes0.truthy && st0.truthy then
          Val.arr [Val.obj [("scene_id", Val.str (job_id ++ "_scene_1")),
                            ("script", st0),
                            ("visual", script_data.getD "visual_description" (Val.str ""))]]
        else scenes0
      if !st0.truthy then
        let st1 := pyOr (script_data.get "content")
            (pyOr (data.get "content") (pyOr (data.get "text") (Val.str "")))
        if !st1.sliceable then none else some (scenes1, st1)
      else some (scenes1, st0)

/-- Audio fallback (main.py:226-229): when the primary `voice.audio_url` is
falsy, read `voice.url` / top-level `audio_url` / `""`; the unguarded
`voice_data.get` raises when `voice` is present but not a dict. -/
def audioPart (voice_data data audio0 : Val) : Option Val :=
  if audio0.truthy then some audio0
  else if voice_data.isObj then
    some (pyOr (voice_data.get "url") (pyOr (data.get "audio_url") (Val.str "")))
  else none

/-- Image fallback (main.py:231-241): when no URL was collected and `image`
is a dict, accept entries of `image.images` / top-level `images` that are
dicts exposing `url` or `cloudinary_url`, or bare strings. -/
def imageFallback (image_data data : Val) (image_urls0 : List Val) : Option (List Val) :=
  if image_urls0.isEmpty && image_data.isObj then
    let alt := pyOr (image_data.get "images") (pyOr (data.get "images") (Val.arr []))
    match alt.elems with
    | none => none
    | some imgs =>
      some (image_urls0 ++ imgs.filterMap (fun img =>
        if img.isObj then
          let u := pyOr (img.get "url") (img.get "cloudinary_url")
          if u.truthy then some u else none
        else match img with
          | .str s => some (.str s)
          | _ => none))
  else some image_urls0

/-- The canonical record the normalization section of `handle_script_ready`
produces for a resolved `job_id`. -/
structure NormResult where
  scenes : Val
  script_text : Val
  audio_url : Val
  image_urls : List Val
  scene_voiceovers : Val
  scene_images : Val

/-- The normalization section of `handle_script_ready` (main.py:179-241),
in source order; `none` models an exception reaching the handler's
catch-all. -/
def normEvent (data : Val) (job_id : String) : Option NormResult :=
  let script_data := data.getD "script" (Val.obj [])
  let voice_data := data.getD "voice" (Val.obj [])
  let audio0 := if voice_data.isObj then voice_data.get "audio_url" else Val.null
  let sv := if voice_data.isObj then voice_data.getD "scene_voiceovers" (Val.arr [])
            else Val.arr []
  let image_data := data.getD "image" (Val.obj [])
  match imagePart image_data with
  | none => none
  | some (iu0, scene_images) =>
    match sceneTextPart script_data data job_id with
    | none => none
    | some (scenes, stext) =>
      match audioPart voice_data data audio0 with
      | none => none
      | some audio =>
        match imageFallback image_data data iu0 with
        | none => none
        | some ius => some ⟨scenes, stext, audio, ius, sv, scene_images⟩

/-- `update_data` as built by the handler (main.py:244-266): the structured
`script` / `voice_data` / `image_data` payloads plus the flat convenience
fields, alongside `status=READY` and the refreshed timestamp. -/
def buildUpdateData (nd : NormResult) (job_id : String) (collection_id meta : Val)
    (now : Nat) : Doc :=
  [("status", Val.str "READY"),
   ("updated_at", Val.time now),
   ("script", Val.obj [("_id", Val.str job_id), ("collection_id", collection_id),
                       ("scenes", nd.scenes), ("metadata", meta)]),
   ("voice_data", Val.obj [("script_id", Val.str job_id), ("collection_id", collection_id),
                           ("scene_voiceovers", nd.scene_voiceovers)]),
   ("image_data", Val.obj [("script_id", Val.str job_id), ("collection_id", collection_id),
                           ("scene_images", nd.scene_images)]),
   ("script_text", nd.script_text),
   ("audio_url", nd.audio_url),
   ("image_urls", Val.arr nd.image_urls)]

/-- `title` used when the handler lazily creates a job (main.py:283):
the event's `script.title` when the key is present, else the placeholder. -/
def titleOf (script_data : Val) : Val :=
  script_data.getD "title" (Val.str "Generated Script")

/-- The degraded collection-only notification (main.py:169-174). -/
def degradedMsg (cid : Val) : Val :=
  Val.obj [("type", Val.str "script_generated"), ("collection_id", cid),
           ("status", Val.str "completed"), ("progress", Val.int 100)]

/-- The collection notification sent after a full reconciliation
(main.py:321-327). -/
def collDoneMsg (cid : Val) (job_id : String) : Val :=
  Val.obj [("type", Val.str "script_generated"), ("collection_id", cid),
           ("script_id", Val.str job_id), ("status", Val.str "completed"),
           ("progress", Val.int 100)]

/-- The `job_complete` notification (main.py:306-313). -/
def jobCompleteMsg (job_id : String) (nd : NormResult) : Val :=
  Val.obj [("type", Val.str "job_complete"), ("job_id", Val.str job_id),
           ("script_id", Val.str job_id), ("script_text", nd.script_text),
           ("audio_url", nd.audio_url), ("image_urls", Val.arr nd.image_urls)]

/-- `handle_script_ready(data)` (main.py:109-333) over an already-decoded
payload: returns the new job store and the ordered list of
`(topic, message)` publishes it performs.  A payload that is not a mapping
(including the string-repr branch, whose `ast` parse is outside this model)
raises or returns before any effect.  Every exception inside the handler is
swallowed by its catch-all after no effect, or after only the effects
already listed. -/
def handle_script_ready (data : Val) (store : List Doc) (now : Nat)
    (freshUuid freshOid : String) : List Doc × List (String × Val) :=
  if !data.isObj then (store, [])
  else
    let job_id := handlerJobId data
    let collection_id := handlerCollectionId data
    if !job_id.truthy then
      if collection_id.truthy then
        (store, [("collection:" ++ collection_id.pyStr, degradedMsg collection_id)])
      else (store, [])
    else
      let jid := job_id.pyStr
      let script_data := data.getD "script" (Val.obj [])
      match normEvent data jid with
      | none => (store, [])
      | some nd =>
        let update_data := buildUpdateData nd jid collection_id
            (script_data.getD "metadata" (Val.obj [])) now
        let store1 :=
          match get_job store jid with
          | none =>
            let job_data : Doc := [("job_id", job_id), ("collection_id", collection_id),
                                   ("title", titleOf script_data),
                                   ("status", Val.str "PENDING")]
            let r := create_job store job_data now freshUuid freshOid
            update_job_from_script_ready r.2 jid update_data now
          | some _ => update_job_from_script_ready store jid update_data now
        let msgs := [("job:" ++ jid, jobCompleteMsg jid nd)]
        let msgs := if collection_id.truthy then
            msgs ++ [("collection:" ++ collection_id.pyStr, collDoneMsg collection_id jid)]
          else msgs
        (store1, msgs)

/-!
## Message broker consumer (`message_broker.py`)
-/

/-- The `script._id` candidate inspected first by the consumer's
`process_message` (message_broker.py:78-83). -/
def brokerS1 (body : Val) : Val :=
  let script_data := body.getD "script" (Val.obj [])
  if script_data.isObj then script_data.get "_id" else Val.null

/-- The `job_id` the consumer resolves for dispatch
(message_broker.py:76-95): `script._id`, then top-level `script_id`, then
top-level `collection_id`, first truthy wins, used verbatim with no
coercion. -/
def brokerJobId (body : Val) : Val :=
  let j1 := brokerS1 body
  if j1.truthy then j1 else
  let j2 := body.get "script_id"
  if j2.truthy then j2 else
  body.get "collection_id"

/-- Python `a in b` on strings: `a` occurs as a contiguous substring of
`b`. -/
def strIn (a b : String) : Bool :=
  b.toList.tails.any (fun t => a.toList.isPrefixOf t)

/-- Callback dispatch for a resolved job id (message_broker.py:107-132):
exact key, else the first registered key (in registration order) such that
one of the two ids contains the other, else the default callback; `none`
when no tier applies (the message is only logged).  Handlers are abstracted
as numeric tokens. -/
def dispatchCallback (cbs : List (String × Nat)) (dflt : Option Nat) (job_id : String) :
    Option Nat :=
  let callback := alistGet job_id cbs
  let callback := match callback with
    | some c => some c
    | none => (findFirst (fun p => strIn p.1 job_id || strIn job_id p.1) cbs).map (·.2)
  match callback with
  | some c => some c
  | none => dflt

/-!
## Connection registry (`websocket.py`)

Connections are abstracted as numeric tokens behind a send interface
`ok : Nat → Bool` (`send_json` succeeds or raises).  The registry is the
`active_connections` dict: topic key to ordered connection list.
-/

/-- The topic-keyed registry of live connections. -/
abbrev Registry := List (String × List Nat)

/-- `_send_update(connection_key, message)` (websocket.py:67-91): when the
key has an entry, send to every listed connection; the source records the
indices whose send raised and pops them in descending order, which retains
exactly the connections whose send succeeded, in their original order; an
emptied list removes the key.  An absent key is a logged no-op.  The second
component lists the `(connection, message)` deliveries that succeeded, in
list order. -/
def sendUpdate (ok : Nat → Bool) (reg : Registry) (key : String) (msg : Val) :
    Registry × List (Nat × Val) :=
  match alistGet key reg with
  | none => (reg, [])
  | some conns =>
    let remaining := conns.filter ok
    let delivered := remaining.map (fun c => (c, msg))
    if remaining.isEmpty then (alistDel key reg, delivered)
    else (alistSet key remaining reg, delivered)

/-!
## Subscription endpoint initial push (`main.py:websocket_endpoint`)
-/

/-- Python `job["status"] == JobStatus.READY`. -/
def isReadyVal : Val → Bool
  | .str s => s == "READY"
  | _ => false

/-- The initial status/snapshot push for a job subscription
(main.py:807-824), on the `get_job` result: first a `job_status` message
from `job["id"]` / `job["status"]` (direct indexing), then, when the job is
READY, a `job_complete` snapshot from `job["script_text"]` /
`job["audio_url"]` / `job["image_urls"]` (direct indexing, no default).
Returns the messages actually sent before any failure and whether a lookup
raised `KeyError`. -/
def wsInitialPush (job : Option Doc) : List Val × Bool :=
  match job with
  | none => ([], false)
  | some j =>
    match alistGet "id" j, alistGet "status" j with
    | some idv, some stv =>
      let m1 := Val.obj [("type", Val.str "job_status"), ("job_id", idv), ("status", stv)]
      if isReadyVal stv then
        match alistGet "script_text" j, alistGet "audio_url" j, alistGet "image_urls" j with
        | some t, some a, some u =>
          ([m1, Val.obj [("type", Val.str "job_complete"), ("job_id", idv),
                         ("script_text", t), ("audio_url", a), ("image_urls", u)]], false)
        | _, _, _ => ([m1], true)
      else ([m1], false)
    | _, _ => ([], true)

/-- The endpoint around the initial push (main.py:798-895): any exception
escaping the push is caught by the endpoint's outer handler, which closes
the connection; nothing propagates out.  Returns the messages delivered and
whether the connection was closed by that handler. -/
def websocketEndpointInit (store : List Doc) (job_id : String) : List Val × Bool :=
  wsInitialPush (get_job store job_id)

/-!
## Association-list and update lemmas
-/

theorem alistGet_alistSet_self {α : Type} (k : String) (v : α) (d : List (String × α)) :
    alistGet k (alistSet k v d) = some v := by
  induction d with
  | nil => simp [alistSet, alistGet]
  | cons p t ih =>
    by_cases h : p.1 = k
    · simp [alistSet, alistGet, h]
    · have hb : (p.1 == k) = false := beq_eq_false_iff_ne.mpr h
      simp [alistSet, alistGet, hb, ih]

theorem alistGet_alistSet_ne {α : Type} (k k' : String) (v : α) (d : List (String × α))
    (h : k' ≠ k) : alistGet k' (alistSet k v d) = alistGet k' d := by
  induction d with
  | nil => simp [alistSet, alistGet, beq_eq_false_iff_ne.mpr (Ne.symm h)]
  | cons p t ih =>
    by_cases hpk : p.1 = k
    · have hne : (k == k') = false := beq_eq_false_iff_ne.mpr (Ne.symm h)
      have hne2 : (p.1 == k') = false := by
        subst hpk; exact hne
      simp [alistSet, alistGet, hpk, hne, hne2]
    · have hb : (p.1 == k) = false := beq_eq_false_iff_ne.mpr hpk
      by_cases hpk' : p.1 = k'
      · have hb2 : (p.1 == k') = true := beq_iff_eq.mpr hpk'
        simp only [alistSet, alistGet, hb, if_false, Bool.false_eq_true, hb2, if_true]
      · have hb' : (p.1 == k') = false := beq_eq_false_iff_ne.mpr hpk'
        simp [alistSet, alistGet, hb, hb', ih]

theorem alistSet_self_eq {α : Type} (k : String) (v : α) (d : List (String × α))
    (h : alistGet k d = some v) : alistSet k v d = d := by
  induction d with
  | nil => simp [alistGet] at h
  | cons p t ih =>
    by_cases hpk : p.1 = k
    · have hb : (p.1 == k) = true := beq_iff_eq.mpr hpk
      simp [alistGet, hb] at h
      cases p with
      | mk k0 v0 => simp_all [alistSet]
    · have hb : (p.1 == k) = false := beq_eq_false_iff_ne.mpr hpk
      simp [alistGet, hb] at h
      simp [alistSet, hb, ih h]

theorem alistGet_applyUd_of_ne (ud : Doc) (d : Doc) (k : String)
    (h : ∀ p ∈ ud, p.1 ≠ k) : alistGet k (applyUd ud d) = alistGet k d := by
  induction ud generalizing d with
  | nil => simp [applyUd]
  | cons p t ih =>
    have h1 : p.1 ≠ k := h p (by simp)
    have ht : ∀ q ∈ t, q.1 ≠ k := fun q hq => h q (by simp [hq])
    show alistGet k (applyUd t (alistSet p.1 p.2 d)) = alistGet k d
    rw [ih (alistSet p.1 p.2 d) ht, alistGet_alistSet_ne _ _ _ _ (fun he => h1 he.symm)]

theorem alistGet_applyUd_mem (ud : Doc) (d : Doc) (k : String) (v : Val)
    (hnd : (ud.map Prod.fst).Nodup) (h : (k, v) ∈ ud) :
    alistGet k (applyUd ud d) = some v := by
  induction ud generalizing d with
  | nil => simp at h
  | cons p t ih =>
    rcases List.mem_cons.mp h with hh | hh
    · have hk : p.1 = k := by rw [← hh]
      have hnot : ∀ q ∈ t, q.1 ≠ k := by
        intro q hq he
        have : p.1 ∈ t.map Prod.fst := by
          rw [hk, ← he]; exact List.mem_map_of_mem Prod.fst hq
        exact (List.nodup_cons.mp hnd).1 this
      show alistGet k (applyUd t (alistSet p.1 p.2 d)) = some v
      rw [alistGet_applyUd_of_ne t _ k hnot, ← hh]
      exact alistGet_alistSet_self k v d
    · show alistGet k (applyUd t (alistSet p.1 p.2 d)) = some v
      exact ih (alistSet p.1 p.2 d) (List.nodup_cons.mp hnd).2 hh

theorem applyUd_fix (ud : Doc) (d : Doc) (h : ∀ p ∈ ud, alistGet p.1 d = some p.2) :
    applyUd ud d = d := by
  induction ud with
  | nil => rfl
  | cons p t ih =>
    have h1 : alistSet p.1 p.2 d = d := alistSet_self_eq _ _ _ (h p (by simp))
    show applyUd t (alistSet p.1 p.2 d) = d
    rw [h1]
    exact ih (fun q hq => h q (by simp [hq]))

theorem applyUd_idem (ud : Doc) (hnd : (ud.map Prod.fst).Nodup) (d : Doc) :
    applyUd ud (applyUd ud d) = applyUd ud d :=
  applyUd_fix ud _ (fun p hp => alistGet_applyUd_mem ud d p.1 p.2 hnd
    (by rcases p with ⟨k, v⟩; exact hp))

theorem findFirst_eq_none {α : Type} (p : α → Bool) (s : List α) :
    findFirst p s = none ↔ ∀ x ∈ s, p x = false := by
  induction s with
  | nil => simp [findFirst]
  | cons a t ih =>
    by_cases h : p a
    · simp [findFirst, h]
    · simp only [Bool.not_eq_true] at h
      simp [findFirst, h, ih]

theorem updateFirst_eq_false (p : Doc → Bool) (f : Doc → Doc) (s : List Doc)
    (h : ∀ x ∈ s, p x = false) : updateFirst p f s = (s, false) := by
  induction s with
  | nil => rfl
  | cons a t ih =>
    have ha : p a = false := h a (by simp)
    have ht := ih (fun x hx => h x (by simp [hx]))
    simp [updateFirst, ha, ht]

theorem updateFirst_snd_false (p : Doc → Bool) (f : Doc → Doc) (s : List Doc)
    (h : (updateFirst p f s).2 = false) : (updateFirst p f s).1 = s := by
  induction s with
  | nil => rfl
  | cons a t ih =>
    by_cases ha : p a
    · simp [updateFirst, ha] at h
    · simp only [Bool.not_eq_true] at ha
      simp only [updateFirst, ha, Bool.false_eq_true, if_false] at h ⊢
      simp [ih h]

theorem updateFirst_of_findFirst (p : Doc → Bool) (f : Doc → Doc) (s : List Doc) (d₀ : Doc)
    (h : findFirst p s = some d₀) :
    ∃ pre post, s = pre ++ d₀ :: post ∧ (∀ x ∈ pre, p x = false) ∧
      updateFirst p f s = (pre ++ f d₀ :: post, true) := by
  induction s with
  | nil => simp [findFirst] at h
  | cons a t ih =>
    by_cases ha : p a
    · have h' : a = d₀ := by simpa [findFirst, ha] using h
      subst h'
      exact ⟨[], t, by simp, by simp, by simp [updateFirst, ha]⟩
    · simp only [Bool.not_eq_true] at ha
      simp only [findFirst, ha, Bool.false_eq_true, if_false] at h
      obtain ⟨pre, post, hs, hpre, hu⟩ := ih h
      refine ⟨a :: pre, post, by simp [hs], ?_, ?_⟩
      · intro x hx
        rcases List.mem_cons.mp hx with hx | hx
        · rw [hx]; exact ha
        · exact hpre x hx
      · simp [updateFirst, ha, hu]

theorem mem_updateFirst (p : Doc → Bool) (f : Doc → Doc) (s : List Doc) (x : Doc)
    (h : x ∈ (updateFirst p f s).1) : x ∈ s ∨ ∃ d ∈ s, x = f d := by
  induction s with
  | nil => simp [updateFirst] at h
  | cons a t ih =>
    by_cases ha : p a
    · simp only [updateFirst, ha, if_true] at h
      rcases List.mem_cons.mp h with hx | hx
      · exact Or.inr ⟨a, by simp, hx⟩
      · exact Or.inl (by simp [hx])
    · simp only [Bool.not_eq_true] at ha
      simp only [updateFirst, ha, Bool.false_eq_true, if_false] at h
      rcases List.mem_cons.mp h with hx | hx
      · exact Or.inl (by simp [hx])
      · rcases ih hx with hh | ⟨d, hd, hfd⟩
        · exact Or.inl (by simp [hh])
        · exact Or.inr ⟨d, by simp [hd], hfd⟩

theorem updateFirst_append_last (p : Doc → Bool) (f : Doc → Doc) (s : List Doc) (c : Doc)
    (hs : ∀ x ∈ s, p x = false) (hc : p c = true) :
    updateFirst p f (s ++ [c]) = (s ++ [f c], true) := by
  induction s with
  | nil => simp [updateFirst, hc]
  | cons a t ih =>
    have ha : p a = false := hs a (by simp)
    have ht := ih (fun x hx => hs x (by simp [hx]))
    simp [updateFirst, ha, ht]

theorem updateFirst_idem (p : Doc → Bool) (f : Doc → Doc) (s : List Doc)
    (hp : ∀ d, p (f d) = p d) (hf : ∀ d, f (f d) = f d) :
    updateFirst p f (updateFirst p f s).1 = ((updateFirst p f s).1, (updateFirst p f s).2) := by
  induction s with
  | nil => rfl
  | cons a t ih =>
    by_cases ha : p a
    · have hfa : p (f a) = true := by rw [hp]; exact ha
      simp [updateFirst, ha, hfa, hf]
    · simp only [Bool.not_eq_true] at ha
      simp only [updateFirst, ha, Bool.false_eq_true, if_false]
      simp only [updateFirst, ha, Bool.false_eq_true, if_false] at ih
      simp [ih]

/-!
## Facts about the `script.ready` update document
-/

theorem scriptReadyUd_keys (data : Doc) (now : Nat) :
    ∀ p ∈ scriptReadyUd data now,
      p.1 = "status" ∨ p.1 = "updated_at" ∨ p.1 = "script" ∨
      p.1 = "voice_data" ∨ p.1 = "image_data" := by
  intro p hp
  unfold scriptReadyUd at hp
  rcases h1 : alistGet "script" data with _ | v1 <;>
    rcases h2 : alistGet "voice_data" data with _ | v2 <;>
      rcases h3 : alistGet "image_data" data with _ | v3 <;>
        simp only [h1, h2, h3, List.mem_append, List.mem_cons,
          List.not_mem_nil, or_false] at hp <;>
        aesop

theorem scriptReadyUd_nodup (data : Doc) (now : Nat) :
    ((scriptReadyUd data now).map Prod.fst).Nodup := by
  unfold scriptReadyUd
  rcases h1 : alistGet "script" data with _ | v1 <;>
    rcases h2 : alistGet "voice_data" data with _ | v2 <;>
      rcases h3 : alistGet "image_data" data with _ | v3 <;>
        simp only [h1, h2, h3, List.map_append, List.map_cons, List.map_nil] <;>
        simp

theorem matchStrK_congr (k s : String) (d1 d2 : Doc)
    (h : alistGet k d1 = alistGet k d2) : matchStrK k s d1 = matchStrK k s d2 := by
  unfold matchStrK
  rw [h]

theorem matchValK_congr (k : String) (v : Val) (d1 d2 : Doc)
    (h : alistGet k d1 = alistGet k d2) : matchValK k v d1 = matchValK k v d2 := by
  unfold matchValK
  rw [h]

theorem alistGet_srf (data : Doc) (now : Nat) (d : Doc) (k : String)
    (h1 : k ≠ "status") (h2 : k ≠ "updated_at") (h3 : k ≠ "script")
    (h4 : k ≠ "voice_data") (h5 : k ≠ "image_data") :
    alistGet k (applyUd (scriptReadyUd data now) d) = alistGet k d := by
  apply alistGet_applyUd_of_ne
  intro p hp
  rcases scriptReadyUd_keys data now p hp with h | h | h | h | h <;>
    rw [h] <;> intro he <;> simp_all

theorem matchStrK_srf (data : Doc) (now : Nat) (d : Doc) (k s : String)
    (h1 : k ≠ "status") (h2 : k ≠ "updated_at") (h3 : k ≠ "script")
    (h4 : k ≠ "voice_data") (h5 : k ≠ "image_data") :
    matchStrK k s (applyUd (scriptReadyUd data now) d) = matchStrK k s d :=
  matchStrK_congr _ _ _ _ (alistGet_srf data now d k h1 h2 h3 h4 h5)

theorem matchValK_srf (data : Doc) (now : Nat) (d : Doc) (k : String) (v : Val)
    (h1 : k ≠ "status") (h2 : k ≠ "updated_at") (h3 : k ≠ "script")
    (h4 : k ≠ "voice_data") (h5 : k ≠ "image_data") :
    matchValK k v (applyUd (scriptReadyUd data now) d) = matchValK k v d :=
  matchValK_congr _ _ _ _ (alistGet_srf data now d k h1 h2 h3 h4 h5)

theorem updateFirst_snd_false_all (p : Doc → Bool) (f : Doc → Doc) (s : List Doc)
    (h : (updateFirst p f s).2 = false) : ∀ x ∈ s, p x = false := by
  induction s with
  | nil => simp
  | cons a t ih =>
    by_cases ha : p a
    · simp [updateFirst, ha] at h
    · simp only [Bool.not_eq_true] at ha
      simp only [updateFirst, ha, Bool.false_eq_true, if_false] at h
      intro x hx
      rcases List.mem_cons.mp hx with hx | hx
      · rw [hx]; exact ha
      · exact ih h x hx

theorem all_false_updateFirst (p q : Doc → Bool) (f : Doc → Doc) (s : List Doc)
    (hq : ∀ d, p (f d) = p d) (hall : ∀ x ∈ s, p x = false) :
    ∀ x ∈ (updateFirst q f s).1, p x = false := by
  intro x hx
  rcases mem_updateFirst q f s x hx with h | ⟨d, hd, hfd⟩
  · exact hall x h
  · rw [hfd, hq]; exact hall d hd

/-- C2: applying `update_job_from_script_ready` twice with the same event
data (and the same call instant) yields a job store identical to applying it
once — the `$set` payloads overwrite rather than append, every lookup
strategy matches the same record again, and a miss stays a miss.  In
particular the status stays READY and no duplicate scenes accumulate. -/
theorem C2_reconcile_idempotent (store : List Doc) (jid : String) (data : Doc) (now : Nat) :
    update_job_from_script_ready (update_job_from_script_ready store jid data now) jid data now
      = update_job_from_script_ready store jid data now := by
  have hf : ∀ d, applyUd (scriptReadyUd data now) (applyUd (scriptReadyUd data now) d)
      = applyUd (scriptReadyUd data now) d :=
    fun d => applyUd_idem _ (scriptReadyUd_nodup data now) d
  have hp1 : ∀ d, matchStrK "job_id" jid (applyUd (scriptReadyUd data now) d)
      = matchStrK "job_id" jid d :=
    fun d => matchStrK_srf data now d _ jid (by decide) (by decide) (by decide) (by decide) (by decide)
  have hp2 : ∀ d, matchStrK "_id" jid (applyUd (scriptReadyUd data now) d)
      = matchStrK "_id" jid d :=
    fun d => matchStrK_srf data now d _ jid (by decide) (by decide) (by decide) (by decide) (by decide)
  have hp3 : ∀ d, matchStrK "uuid" jid (applyUd (scriptReadyUd data now) d)
      = matchStrK "uuid" jid d :=
    fun d => matchStrK_srf data now d _ jid (by decide) (by decide) (by decide) (by decide) (by decide)
  have hp4 : ∀ d, matchStrK "id" jid (applyUd (scriptReadyUd data now) d)
      = matchStrK "id" jid d :=
    fun d => matchStrK_srf data now d _ jid (by decide) (by decide) (by decide) (by decide) (by decide)
  have hp5 : ∀ v d, matchValK "collection_id" v (applyUd (scriptReadyUd data now) d)
      = matchValK "collection_id" v d :=
    fun v d => matchValK_srf data now d _ v (by decide) (by decide) (by decide) (by decide) (by decide)
  by_cases h1 : (updateFirst (matchStrK "job_id" jid) (applyUd (scriptReadyUd data now)) store).2
  · have hres : update_job_from_script_ready store jid data now
        = (updateFirst (matchStrK "job_id" jid) (applyUd (scriptReadyUd data now)) store).1 := by
      simp [update_job_from_script_ready, h1]
    have hidem := updateFirst_idem (matchStrK "job_id" jid) (applyUd (scriptReadyUd data now))
      store hp1 hf
    rw [hres]
    simp [update_job_from_script_ready, hidem, h1]
  · simp only [Bool.not_eq_true] at h1
    have hall1 := updateFirst_snd_false_all _ _ _ h1
    have hkeep1 := updateFirst_snd_false _ _ _ h1
    by_cases hv : isValidObjectId jid
    · by_cases h2 : (updateFirst (matchStrK "_id" jid) (applyUd (scriptReadyUd data now)) store).2
      · have hres : update_job_from_script_ready store jid data now
            = (updateFirst (matchStrK "_id" jid) (applyUd (scriptReadyUd data now)) store).1 := by
          simp [update_job_from_script_ready, h1, hv, h2]
        have hfl1 : (updateFirst (matchStrK "job_id" jid) (applyUd (scriptReadyUd data now))
            (updateFirst (matchStrK "_id" jid) (applyUd (scriptReadyUd data now)) store).1).2 = false := by
          rw [updateFirst_eq_false]
          exact all_false_updateFirst _ _ _ _ hp1 hall1
        have hidem := updateFirst_idem (matchStrK "_id" jid) (applyUd (scriptReadyUd data now))
          store hp2 hf
        rw [hres]
        simp [update_job_from_script_ready, hfl1, updateFirst_snd_false _ _ _ hfl1, hv, hidem, h2]
      · simp only [Bool.not_eq_true] at h2
        have hall2 := updateFirst_snd_false_all _ _ _ h2
        by_cases h3 : (updateFirst (matchStrK "uuid" jid) (applyUd (scriptReadyUd data now)) store).2
        · have hres : update_job_from_script_ready store jid data now
              = (updateFirst (matchStrK "uuid" jid) (applyUd (scriptReadyUd data now)) store).1 := by
            simp [update_job_from_script_ready, h1, hv, h2, h3]
          have hfl1 : (updateFirst (matchStrK "job_id" jid) (applyUd (scriptReadyUd data now))
              (updateFirst (matchStrK "uuid" jid) (applyUd (scriptReadyUd data now)) store).1).2 = false := by
            rw [updateFirst_eq_false]
            exact all_false_updateFirst _ _ _ _ hp1 hall1
          have hfl2 : (updateFirst (matchStrK "_id" jid) (applyUd (scriptReadyUd data now))
              (updateFirst (matchStrK "uuid" jid) (applyUd (scriptReadyUd data now)) store).1).2 = false := by
            rw [updateFirst_eq_false]
            exact all_false_updateFirst _ _ _ _ hp2 hall2
          have hidem := updateFirst_idem (matchStrK "uuid" jid) (applyUd (scriptReadyUd data now))
            store hp3 hf
          rw [hres]
          simp [update_job_from_script_ready, hfl1, updateFirst_snd_false _ _ _ hfl1, hv,
            hfl2, updateFirst_snd_false _ _ _ hfl2, hidem, h3]
        · simp only [Bool.not_eq_true] at h3
          have hall3 := updateFirst_snd_false_all _ _ _ h3
          by_cases h4 : (updateFirst (matchStrK "id" jid) (applyUd (scriptReadyUd data now)) store).2
          · have hres : update_job_from_script_ready store jid data now
                = (updateFirst (matchStrK "id" jid) (applyUd (scriptReadyUd data now)) store).1 := by
              simp [update_job_from_script_ready, h1, hv, h2, h3, h4]
            have hfl1 : (updateFirst (matchStrK "job_id" jid) (applyUd (scriptReadyUd data now))
                (updateFirst (matchStrK "id" jid) (applyUd (scriptReadyUd data now)) store).1).2 = false := by
              rw [updateFirst_eq_false]
              exact all_false_updateFirst _ _ _ _ hp1 hall1
            have hfl2 : (updateFirst (matchStrK "_id" jid) (applyUd (scriptReadyUd data now))
                (updateFirst (matchStrK "id" jid) (applyUd (scriptReadyUd data now)) store).1).2 = false := by
              rw [updateFirst_eq_false]
              exact all_false_updateFirst _ _ _ _ hp2 hall2
            have hfl3 : (updateFirst (matchStrK "uuid" jid) (applyUd (scriptReadyUd data now))
                (updateFirst (matchStrK "id" jid) (applyUd (scriptReadyUd data now)) store).1).2 = false := by
              rw [updateFirst_eq_false]
              exact all_false_updateFirst _ _ _ _ hp3 hall3
            have hidem := updateFirst_idem (matchStrK "id" jid) (applyUd (scriptReadyUd data now))
              store hp4 hf
            rw [hres]
            simp [update_job_from_script_ready, hfl1, updateFirst_snd_false _ _ _ hfl1, hv,
              hfl2, updateFirst_snd_false _ _ _ hfl2, hfl3, updateFirst_snd_false _ _ _ hfl3,
              hidem, h4]
          · simp only [Bool.not_eq_true] at h4
            have hall4 := updateFirst_snd_false_all _ _ _ h4
            by_cases hc : (srdCollectionId data).truthy
            · have hres : update_job_from_script_ready store jid data now
                  = (updateFirst (matchValK "collection_id" (srdCollectionId data))
                      (applyUd (scriptReadyUd data now)) store).1 := by
                simp [update_job_from_script_ready, h1, hv, h2, h3, h4, hc]
              have hfl1 : (updateFirst (matchStrK "job_id" jid) (applyUd (scriptReadyUd data now))
                  (updateFirst (matchValK "collection_id" (srdCollectionId data))
                    (applyUd (scriptReadyUd data now)) store).1).2 = false := by
                rw [updateFirst_eq_false]
                exact all_false_updateFirst _ _ _ _ hp1 hall1
              have hfl2 : (updateFirst (matchStrK "_id" jid) (applyUd (scriptReadyUd data now))
                  (updateFirst (matchValK "collection_id" (srdCollectionId data))
                    (applyUd (scriptReadyUd data now)) store).1).2 = false := by
                rw [updateFirst_eq_false]
                exact all_false_updateFirst _ _ _ _ hp2 hall2
              have hfl3 : (updateFirst (matchStrK "uuid" jid) (applyUd (scriptReadyUd data now))
                  (updateFirst (matchValK "collection_id" (srdCollectionId data))
                    (applyUd (scriptReadyUd data now)) store).1).2 = false := by
                rw [updateFirst_eq_false]
                exact all_false_updateFirst _ _ _ _ hp3 hall3
              have hfl4 : (updateFirst (matchStrK "id" jid) (applyUd (scriptReadyUd data now))
                  (updateFirst (matchValK "collection_id" (srdCollectionId data))
                    (applyUd (scriptReadyUd data now)) store).1).2 = false := by
                rw [updateFirst_eq_false]
                exact all_false_updateFirst _ _ _ _ hp4 hall4
              have hidem := updateFirst_idem (matchValK "collection_id" (srdCollectionId data))
                (applyUd (scriptReadyUd data now)) store (hp5 _) hf
              by_cases h5 : (updateFirst (matchValK "collection_id" (srdCollectionId data))
                  (applyUd (scriptReadyUd data now)) store).2
              · rw [hres]
                simp [update_job_from_script_ready, hfl1, updateFirst_snd_false _ _ _ hfl1, hv,
                  hfl2, updateFirst_snd_false _ _ _ hfl2, hfl3, updateFirst_snd_false _ _ _ hfl3,
                  hfl4, updateFirst_snd_false _ _ _ hfl4, hc, hidem]
              · simp only [Bool.not_eq_true] at h5
                have hkeep5 := updateFirst_snd_false _ _ _ h5
                rw [hres, hkeep5]
                simp [update_job_from_script_ready, h1, hkeep1, hv, h2, h3, h4, hc, hkeep5]
            · simp only [Bool.not_eq_true] at hc
              have hres : update_job_from_script_ready store jid data now = store := by
                simp [update_job_from_script_ready, h1, hv, h2, h3, h4, hc]
              rw [hres]
              simp [update_job_from_script_ready, h1, hv, h2, h3, h4, hc]
    · simp only [Bool.not_eq_true] at hv
      by_cases h3 : (updateFirst (matchStrK "uuid" jid) (applyUd (scriptReadyUd data now)) store).2
      · have hres : update_job_from_script_ready store jid data now
            = (updateFirst (matchStrK "uuid" jid) (applyUd (scriptReadyUd data now)) store).1 := by
          simp [update_job_from_script_ready, h1, hv, h3]
        have hfl1 : (updateFirst (matchStrK "job_id" jid) (applyUd (scriptReadyUd data now))
            (updateFirst (matchStrK "uuid" jid) (applyUd (scriptReadyUd data now)) store).1).2 = false := by
          rw [updateFirst_eq_false]
          exact all_false_updateFirst _ _ _ _ hp1 hall1
        have hidem := updateFirst_idem (matchStrK "uuid" jid) (applyUd (scriptReadyUd data now))
          store hp3 hf
        rw [hres]
        simp [update_job_from_script_ready, hfl1, updateFirst_snd_false _ _ _ hfl1, hv, hidem, h3]
      · simp only [Bool.not_eq_true] at h3
        have hall3 := updateFirst_snd_false_all _ _ _ h3
        by_cases h4 : (updateFirst (matchStrK "id" jid) (applyUd (scriptReadyUd data now)) store).2
        · have hres : update_job_from_script_ready store jid data now
              = (updateFirst (matchStrK "id" jid) (applyUd (scriptReadyUd data now)) store).1 := by
            simp [update_job_from_script_ready, h1, hv, h3, h4]
          have hfl1 : (updateFirst (matchStrK "job_id" jid) (applyUd (scriptReadyUd data now))
              (updateFirst (matchStrK "id" jid) (applyUd (scriptReadyUd data now)) store).1).2 = false := by
            rw [updateFirst_eq_false]
            exact all_false_updateFirst _ _ _ _ hp1 hall1
          have hfl3 : (updateFirst (matchStrK "uuid" jid) (applyUd (scriptReadyUd data now))
              (updateFirst (matchStrK "id" jid) (applyUd (scriptReadyUd data now)) store).1).2 = false := by
            rw [updateFirst_eq_false]
            exact all_false_updateFirst _ _ _ _ hp3 hall3
          have hidem := updateFirst_idem (matchStrK "id" jid) (applyUd (scriptReadyUd data now))
            store hp4 hf
          rw [hres]
          simp [update_job_from_script_ready, hfl1, updateFirst_snd_false _ _ _ hfl1, hv,
            hfl3, updateFirst_snd_false _ _ _ hfl3, hidem, h4]
        · simp only [Bool.not_eq_true] at h4
          have hall4 := updateFirst_snd_false_all _ _ _ h4
          by_cases hc : (srdCollectionId data).truthy
          · have hres : update_job_from_script_ready store jid data now
                = (updateFirst (matchValK "collection_id" (srdCollectionId data))
                    (applyUd (scriptReadyUd data now)) store).1 := by
              simp [update_job_from_script_ready, h1, hv, h3, h4, hc]
            have hfl1 : (updateFirst (matchStrK "job_id" jid) (applyUd (scriptReadyUd data now))
                (updateFirst (matchValK "collection_id" (srdCollectionId data))
                  (applyUd (scriptReadyUd data now)) store).1).2 = false := by
              rw [updateFirst_eq_false]
              exact all_false_updateFirst _ _ _ _ hp1 hall1
            have hfl3 : (updateFirst (matchStrK "uuid" jid) (applyUd (scriptReadyUd data now))
                (updateFirst (matchValK "collection_id" (srdCollectionId data))
                  (applyUd (scriptReadyUd data now)) store).1).2 = false := by
              rw [updateFirst_eq_false]
              exact all_false_updateFirst _ _ _ _ hp3 hall3
            have hfl4 : (updateFirst (matchStrK "id" jid) (applyUd (scriptReadyUd data now))
                (updateFirst (matchValK "collection_id" (srdCollectionId data))
                  (applyUd (scriptReadyUd data now)) store).1).2 = false := by
              rw [updateFirst_eq_false]
              exact all_false_updateFirst _ _ _ _ hp4 hall4
            have hidem := updateFirst_idem (matchValK "collection_id" (srdCollectionId data))
              (applyUd (scriptReadyUd data now)) store (hp5 _) hf
            by_cases h5 : (updateFirst (matchValK "collection_id" (srdCollectionId data))
                (applyUd (scriptReadyUd data now)) store).2
            · rw [hres]
              simp [update_job_from_script_ready, hfl1, updateFirst_snd_false _ _ _ hfl1, hv,
                hfl3, updateFirst_snd_false _ _ _ hfl3,
                hfl4, updateFirst_snd_false _ _ _ hfl4, hc, hidem]
            · simp only [Bool.not_eq_true] at h5
              have hkeep5 := updateFirst_snd_false _ _ _ h5
              rw [hres, hkeep5]
              simp [update_job_from_script_ready, h1, hkeep1, hv, h3, h4, hc, hkeep5]
          · simp only [Bool.not_eq_true] at hc
            have hres : update_job_from_script_ready store jid data now = store := by
              simp [update_job_from_script_ready, h1, hv, h3, h4, hc]
            rw [hres]
            simp [update_job_from_script_ready, h1, hv, h3, h4, hc]

theorem alistGet_alistDel_ne {α : Type} (k k' : String) (d : List (String × α))
    (h : k' ≠ k) : alistGet k' (alistDel k d) = alistGet k' d := by
  induction d with
  | nil => rfl
  | cons p t ih =>
    by_cases hpk : p.1 = k
    · have hb : (p.1 == k) = true := beq_iff_eq.mpr hpk
      have hb' : (p.1 == k') = false := by
        refine beq_eq_false_iff_ne.mpr ?_
        rw [hpk]; exact fun he => h he.symm
      simp [alistDel, alistGet, hb, hb']
    · have hb : (p.1 == k) = false := beq_eq_false_iff_ne.mpr hpk
      by_cases hpk' : p.1 = k'
      · have hb2 : (p.1 == k') = true := beq_iff_eq.mpr hpk'
        simp [alistDel, alistGet, hb, hb2]
      · have hb2 : (p.1 == k') = false := beq_eq_false_iff_ne.mpr hpk'
        simp [alistDel, alistGet, hb, hb2, ih]

theorem alistGet_isoKey_ne (d : Doc) (k k' : String) (h : k' ≠ k) :
    alistGet k' (isoKey d k) = alistGet k' d := by
  unfold isoKey
  rcases hg : alistGet k d with _ | v
  · rfl
  · cases v <;> first
      | rfl
      | exact alistGet_alistSet_ne _ _ _ _ h

theorem alistGet_isoKey_time (d : Doc) (k : String) (t : Nat)
    (h : alistGet k d = some (.time t)) :
    alistGet k (isoKey d k) = some (.str (isoRender t)) := by
  unfold isoKey
  rw [h]
  exact alistGet_alistSet_self _ _ _

theorem alistGet_renderJob_ne (d : Doc) (k : String)
    (h1 : k ≠ "id") (h2 : k ≠ "_id") (h3 : k ≠ "created_at") (h4 : k ≠ "updated_at") :
    alistGet k (renderJob d) = alistGet k d := by
  unfold renderJob
  rcases hg : alistGet "_id" d with _ | v
  · rw [alistGet_isoKey_ne _ _ _ h4, alistGet_isoKey_ne _ _ _ h3]
  · rw [alistGet_isoKey_ne _ _ _ h4, alistGet_isoKey_ne _ _ _ h3,
      alistGet_alistDel_ne _ _ _ h2, alistGet_alistSet_ne _ _ _ _ h1]

theorem alistGet_renderJob_updated (d : Doc) (t : Nat)
    (h : alistGet "updated_at" d = some (.time t)) :
    alistGet "updated_at" (renderJob d) = some (.str (isoRender t)) := by
  unfold renderJob
  rcases hg : alistGet "_id" d with _ | v
  · exact alistGet_isoKey_time _ _ _ (by rw [alistGet_isoKey_ne _ _ _ (by decide)]; exact h)
  · refine alistGet_isoKey_time _ _ _ ?_
    rw [alistGet_isoKey_ne _ _ _ (by decide), alistGet_alistDel_ne _ _ _ (by decide),
      alistGet_alistSet_ne _ _ _ _ (by decide)]
    exact h

theorem alistGet_mem {α : Type} (k : String) (v : α) (d : List (String × α))
    (h : alistGet k d = some v) : (k, v) ∈ d := by
  induction d with
  | nil => simp [alistGet] at h
  | cons p t ih =>
    by_cases hpk : p.1 = k
    · have hb : (p.1 == k) = true := beq_iff_eq.mpr hpk
      simp only [alistGet, hb, if_true, Option.some_inj] at h
      have he : (k, v) = p := by rw [← hpk, ← h]
      rw [he]
      exact List.mem_cons_self p t
    · have hb : (p.1 == k) = false := beq_eq_false_iff_ne.mpr hpk
      simp only [alistGet, hb, Bool.false_eq_true, if_false] at h
      exact List.mem_cons_of_mem _ (ih h)

theorem alistGet_applyUd_hit (ud d : Doc) (k : String) (v : Val)
    (hnd : (ud.map Prod.fst).Nodup) (h : alistGet k ud = some v) :
    alistGet k (applyUd ud d) = some v :=
  alistGet_applyUd_mem ud d k v hnd (alistGet_mem k v ud h)

theorem alistGet_scriptReadyUd_status (data : Doc) (now : Nat) :
    alistGet "status" (scriptReadyUd data now) = some (Val.str "READY") := by
  unfold scriptReadyUd
  rcases h1 : alistGet "script" data with _ | v1 <;>
    rcases h2 : alistGet "voice_data" data with _ | v2 <;>
      rcases h3 : alistGet "image_data" data with _ | v3 <;>
        simp [h1, h2, h3, alistGet]

theorem alistGet_scriptReadyUd_updated (data : Doc) (now : Nat) :
    alistGet "updated_at" (scriptReadyUd data now) = some (Val.time now) := by
  unfold scriptReadyUd
  rcases h1 : alistGet "script" data with _ | v1 <;>
    rcases h2 : alistGet "voice_data" data with _ | v2 <;>
      rcases h3 : alistGet "image_data" data with _ | v3 <;>
        simp [h1, h2, h3, alistGet]

theorem alistGet_scriptReadyUd_script (data : Doc) (now : Nat) :
    alistGet "script" (scriptReadyUd data now) = alistGet "script" data := by
  unfold scriptReadyUd
  rcases h1 : alistGet "script" data with _ | v1 <;>
    rcases h2 : alistGet "voice_data" data with _ | v2 <;>
      rcases h3 : alistGet "image_data" data with _ | v3 <;>
        simp [h1, h2, h3, alistGet]

theorem alistGet_scriptReadyUd_voice (data : Doc) (now : Nat) :
    alistGet "voice_data" (scriptReadyUd data now) = alistGet "voice_data" data := by
  unfold scriptReadyUd
  rcases h1 : alistGet "script" data with _ | v1 <;>
    rcases h2 : alistGet "voice_data" data with _ | v2 <;>
      rcases h3 : alistGet "image_data" data with _ | v3 <;>
        simp [h1, h2, h3, alistGet]

theorem alistGet_scriptReadyUd_image (data : Doc) (now : Nat) :
    alistGet "image_data" (scriptReadyUd data now) = alistGet "image_data" data := by
  unfold scriptReadyUd
  rcases h1 : alistGet "script" data with _ | v1 <;>
    rcases h2 : alistGet "voice_data" data with _ | v2 <;>
      rcases h3 : alistGet "image_data" data with _ | v3 <;>
        simp [h1, h2, h3, alistGet]

theorem findFirst_append_first (p : Doc → Bool) (pre post : List Doc) (c : Doc)
    (hpre : ∀ x ∈ pre, p x = false) (hc : p c = true) :
    findFirst p (pre ++ c :: post) = some c := by
  induction pre with
  | nil => simp [findFirst, hc]
  | cons a t ih =>
    have ha : p a = false := hpre a (by simp)
    simp only [List.cons_append, findFirst, ha, Bool.false_eq_true, if_false]
    exact ih (fun x hx => hpre x (by simp [hx]))

theorem findFirst_some_pred {α : Type} (p : α → Bool) (s : List α) (x : α)
    (h : findFirst p s = some x) : p x = true := by
  induction s with
  | nil => simp [findFirst] at h
  | cons a t ih =>
    by_cases ha : p a
    · simp only [findFirst, ha, if_true, Option.some_inj] at h
      rw [← h]; exact ha
    · simp only [Bool.not_eq_true] at ha
      simp only [findFirst, ha, Bool.false_eq_true, if_false] at h
      exact ih h

/-- C1 (amended): for an event data dict applied through
`update_job_from_script_ready` to a store whose first `job_id` match is
`d₀`, the matched record is merged with `status=READY`, a refreshed
`updated_at`, and the structured `script` / `voice_data` / `image_data`
payloads of the event — but NOT the flat `script_text` / `audio_url` /
`image_urls` fields, which keep whatever value (or absence) `d₀` already
had; a subsequent `get_job(job_id)` returns that record with status READY
and the flat fields unchanged. -/
theorem C1_structured_merge_only (store : List Doc) (jid : String) (data : Doc) (now : Nat)
    (d₀ : Doc) (h : findFirst (matchStrK "job_id" jid) store = some d₀) :
    ∃ r, get_job (update_job_from_script_ready store jid data now) jid = some r ∧
      alistGet "status" r = some (Val.str "READY") ∧
      alistGet "updated_at" r = some (Val.str (isoRender now)) ∧
      (∀ v, alistGet "script" data = some v → alistGet "script" r = some v) ∧
      (∀ v, alistGet "voice_data" data = some v → alistGet "voice_data" r = some v) ∧
      (∀ v, alistGet "image_data" data = some v → alistGet "image_data" r = some v) ∧
      alistGet "script_text" r = alistGet "script_text" d₀ ∧
      alistGet "audio_url" r = alistGet "audio_url" d₀ ∧
      alistGet "image_urls" r = alistGet "image_urls" d₀ := by
  obtain ⟨pre, post, hsplit, hpre, hu⟩ :=
    updateFirst_of_findFirst (matchStrK "job_id" jid) (applyUd (scriptReadyUd data now)) store d₀ h
  have hflag : (updateFirst (matchStrK "job_id" jid) (applyUd (scriptReadyUd data now)) store).2
      = true := by rw [hu]
  have hres : update_job_from_script_ready store jid data now
      = pre ++ applyUd (scriptReadyUd data now) d₀ :: post := by
    simp only [update_job_from_script_ready, hflag, if_true]
    rw [hu]
  have hpd : matchStrK "job_id" jid (applyUd (scriptReadyUd data now) d₀) = true := by
    rw [matchStrK_srf data now d₀ _ jid (by decide) (by decide) (by decide) (by decide) (by decide)]
    exact findFirst_some_pred _ _ _ h
  have hfind : findFirst (matchStrK "job_id" jid)
      (pre ++ applyUd (scriptReadyUd data now) d₀ :: post)
      = some (applyUd (scriptReadyUd data now) d₀) :=
    findFirst_append_first _ _ _ _ hpre hpd
  refine ⟨renderJob (applyUd (scriptReadyUd data now) d₀), ?_, ?_, ?_, ?_, ?_, ?_, ?_, ?_, ?_⟩
  · rw [hres]
    simp [get_job, hfind]
  · rw [alistGet_renderJob_ne _ _ (by decide) (by decide) (by decide) (by decide)]
    exact alistGet_applyUd_hit _ _ _ _ (scriptReadyUd_nodup data now)
      (alistGet_scriptReadyUd_status data now)
  · exact alistGet_renderJob_updated _ now
      (alistGet_applyUd_hit _ _ _ _ (scriptReadyUd_nodup data now)
        (alistGet_scriptReadyUd_updated data now))
  · intro v hv
    rw [alistGet_renderJob_ne _ _ (by decide) (by decide) (by decide) (by decide)]
    exact alistGet_applyUd_hit _ _ _ _ (scriptReadyUd_nodup data now)
      (by rw [alistGet_scriptReadyUd_script data now]; exact hv)
  · intro v hv
    rw [alistGet_renderJob_ne _ _ (by decide) (by decide) (by decide) (by decide)]
    exact alistGet_applyUd_hit _ _ _ _ (scriptReadyUd_nodup data now)
      (by rw [alistGet_scriptReadyUd_voice data now]; exact hv)
  · intro v hv
    rw [alistGet_renderJob_ne _ _ (by decide) (by decide) (by decide) (by decide)]
    exact alistGet_applyUd_hit _ _ _ _ (scriptReadyUd_nodup data now)
      (by rw [alistGet_scriptReadyUd_image data now]; exact hv)
  · rw [alistGet_renderJob_ne _ _ (by decide) (by decide) (by decide) (by decide)]
    exact alistGet_srf data now d₀ _ (by decide) (by decide) (by decide) (by decide) (by decide)
  · rw [alistGet_renderJob_ne _ _ (by decide) (by decide) (by decide) (by decide)]
    exact alistGet_srf data now d₀ _ (by decide) (by decide) (by decide) (by decide) (by decide)
  · rw [alistGet_renderJob_ne _ _ (by decide) (by decide) (by decide) (by decide)]
    exact alistGet_srf data now d₀ _ (by decide) (by decide) (by decide) (by decide) (by decide)

/-- A `script.ready` event carrying a non-empty `script_text` for job
`job-1`. -/
def cexReadyEvent : Val :=
  Val.obj [("script", Val.obj [("_id", Val.str "job-1"),
                               ("script_text", Val.str "Hello world")])]

/-- A store holding the matching job record, which (like every record the
gateway creates) has no flat `script_text` field yet. -/
def cexReadyStore : List Doc :=
  [[("_id", Val.str "bbbbbbbbbbbbbbbbbbbbbbbb"), ("job_id", Val.str "job-1"),
    ("status", Val.str "PENDING"), ("title", Val.str "T")]]

/-- C1 (counterexample): processing an event with non-empty script text
through the full reconcile path leaves the job READY, yet `get(job_id)`
returns a record whose `script_text` key is ABSENT — the flat convenience
fields are not merged, contradicting the claim that the returned record
carries the event's non-empty `script_text`. -/
theorem C1_counterexample :
    ((get_job (handle_script_ready cexReadyEvent cexReadyStore 5 "u0"
        "cccccccccccccccccccccccc").1 "job-1").map
      (fun r => (alistGet "status" r, alistGet "script_text" r)))
      = some (some (Val.str "READY"), none) := rfl

/-- Witness instantiating `C1_structured_merge_only` at a concrete store and
event. -/
theorem C1_structured_merge_only_witness :
    ∃ r, get_job (update_job_from_script_ready
        [[("job_id", Val.str "j"), ("script_text", Val.str "old")]] "j"
        [("script", Val.str "S")] 3) "j" = some r ∧
      alistGet "status" r = some (Val.str "READY") ∧
      alistGet "updated_at" r = some (Val.str (isoRender 3)) ∧
      (∀ v, alistGet "script" [("script", Val.str "S")] = some v →
        alistGet "script" r = some v) ∧
      (∀ v, alistGet "voice_data" [("script", Val.str "S")] = some v →
        alistGet "voice_data" r = some v) ∧
      (∀ v, alistGet "image_data" [("script", Val.str "S")] = some v →
        alistGet "image_data" r = some v) ∧
      alistGet "script_text" r
        = alistGet "script_text" [("job_id", Val.str "j"), ("script_text", Val.str "old")] ∧
      alistGet "audio_url" r
        = alistGet "audio_url" [("job_id", Val.str "j"), ("script_text", Val.str "old")] ∧
      alistGet "image_urls" r
        = alistGet "image_urls" [("job_id", Val.str "j"), ("script_text", Val.str "old")] :=
  C1_structured_merge_only _ "j" _ 3 _ rfl

/-- An event for an unknown job that carries its own `script.title`. -/
def cexTitleEvent : Val :=
  Val.obj [("script", Val.obj [("_id", Val.str "abc-3"),
                               ("script_text", Val.str "Hi"),
                               ("title", Val.str "My Title")])]

/-- C3 (counterexample): lazily creating a record for an unknown job id does
NOT always seed a placeholder title — when the event carries `script.title`,
that title is stored, contradicting the claim that the minimal record is
created with a placeholder title. -/
theorem C3_counterexample :
    ((handle_script_ready cexTitleEvent [] 4 "u1" "dddddddddddddddddddddddd").1.head?.map
      (fun d => alistGet "title" d)) = some (some (Val.str "My Title")) ∧
    "My Title" ≠ "Generated Script" :=
  ⟨rfl, by decide⟩

theorem get_job_none_inv (store : List Doc) (jid : String)
    (h : get_job store jid = none) :
    findFirst (matchStrK "job_id" jid) store = none ∧
    (isValidObjectId jid = true → findFirst (matchStrK "_id" jid) store = none) ∧
    findFirst (matchStrK "uuid" jid) store = none ∧
    findFirst (matchStrK "id" jid) store = none := by
  have hj1 : findFirst (matchStrK "job_id" jid) store = none := by
    rcases h1 : findFirst (matchStrK "job_id" jid) store with _ | d1
    · rfl
    · exfalso
      simp [get_job, h1] at h
  have hj2 : isValidObjectId jid = true → findFirst (matchStrK "_id" jid) store = none := by
    intro hv
    rcases h2 : findFirst (matchStrK "_id" jid) store with _ | d2
    · rfl
    · exfalso
      simp [get_job, hj1, hv, h2] at h
  have hj3 : findFirst (matchStrK "uuid" jid) store = none := by
    rcases h3 : findFirst (matchStrK "uuid" jid) store with _ | d3
    · rfl
    · exfalso
      by_cases hv : isValidObjectId jid
      · simp [get_job, hj1, hv, hj2 hv, h3] at h
      · simp only [Bool.not_eq_true] at hv
        simp [get_job, hj1, hv, h3] at h
  have hj4 : findFirst (matchStrK "id" jid) store = none := by
    rcases h4 : findFirst (matchStrK "id" jid) store with _ | d4
    · rfl
    · exfalso
      by_cases hv : isValidObjectId jid
      · simp [get_job, hj1, hv, hj2 hv, hj3, h4] at h
      · simp only [Bool.not_eq_true] at hv
        simp [get_job, hj1, hv, hj3, h4] at h
  exact ⟨hj1, hj2, hj3, hj4⟩

/-- C3 (amended): for an event whose resolved job_id matches no existing
record, the consumer first creates a minimal record carrying that job_id,
the resolved collection_id, status PENDING, and a title taken from the
event's `script.title` when present (the placeholder "Generated Script"
otherwise, via `titleOf`); `create_job` returns the job_id — chosen from the
supplied `job_id` / `script_id` / `id` keys in that preference order, or a
fresh random UUID when none is truthy — and never the storage key; the
handler then reconciles the freshly created record with the same
identifier, leaving it READY. -/
theorem C3_lazy_create_then_reconcile (data : Val) (store : List Doc) (now : Nat)
    (fu fo : String) (jid : String) (nd : NormResult)
    (hobj : data.isObj = true)
    (hjid : handlerJobId data = Val.str jid)
    (hne : jid ≠ "")
    (hmiss : get_job store jid = none)
    (hnorm : normEvent data jid = some nd) :
    ∃ C D,
      create_job store
        [("job_id", Val.str jid), ("collection_id", handlerCollectionId data),
         ("title", titleOf (data.getD "script" (Val.obj []))),
         ("status", Val.str "PENDING")] now fu fo = (Val.str jid, store ++ [C]) ∧
      alistGet "status" C = some (Val.str "PENDING") ∧
      alistGet "job_id" C = some (Val.str jid) ∧
      (handle_script_ready data store now fu fo).1 = store ++ [D] ∧
      D = applyUd (scriptReadyUd (buildUpdateData nd jid (handlerCollectionId data)
            ((data.getD "script" (Val.obj [])).getD "metadata" (Val.obj [])) now) now) C ∧
      alistGet "job_id" D = some (Val.str jid) ∧
      alistGet "collection_id" D = some (handlerCollectionId data) ∧
      alistGet "title" D = some (titleOf (data.getD "script" (Val.obj []))) ∧
      alistGet "status" D = some (Val.str "READY") ∧
      alistGet "created_at" D = some (Val.time now) ∧
      (∀ (jd : Doc) (st : List Doc) (n : Nat) (u o : String),
        ((docGetV jd "job_id").truthy = true →
          (create_job st jd n u o).1 = docGetV jd "job_id") ∧
        ((docGetV jd "job_id").truthy = false → (docGetV jd "script_id").truthy = true →
          (create_job st jd n u o).1 = docGetV jd "script_id") ∧
        ((docGetV jd "job_id").truthy = false → (docGetV jd "script_id").truthy = false →
          (docGetV jd "id").truthy = true → (create_job st jd n u o).1 = docGetV jd "id") ∧
        ((docGetV jd "job_id").truthy = false → (docGetV jd "script_id").truthy = false →
          (docGetV jd "id").truthy = false → (create_job st jd n u o).1 = Val.str u)) := by
  obtain ⟨hj1, _, _, _⟩ := get_job_none_inv store jid hmiss
  have htr : Val.truthy (Val.str jid) = true := by simp [Val.truthy, hne]
  refine ⟨[("job_id", Val.str jid), ("collection_id", handlerCollectionId data),
      ("title", titleOf (data.getD "script" (Val.obj []))),
      ("status", Val.str "PENDING"), ("created_at", Val.time now),
      ("updated_at", Val.time now), ("_id", Val.str fo)],
    applyUd (scriptReadyUd (buildUpdateData nd jid (handlerCollectionId data)
      ((data.getD "script" (Val.obj [])).getD "metadata" (Val.obj [])) now) now)
      [("job_id", Val.str jid), ("collection_id", handlerCollectionId data),
       ("title", titleOf (data.getD "script" (Val.obj []))),
       ("status", Val.str "PENDING"), ("created_at", Val.time now),
       ("updated_at", Val.time now), ("_id", Val.str fo)],
    ?_, by simp [alistGet], by simp [alistGet], ?_, rfl, ?_, ?_, ?_, ?_, ?_, ?_⟩
  · simp [create_job, docGetV, pyOr, alistGet, alistSet, Val.truthy, hne]
  · have hcreate : create_job store [("job_id", Val.str jid),
        ("collection_id", handlerCollectionId data),
        ("title", titleOf (data.getD "script" (Val.obj []))),
        ("status", Val.str "PENDING")] now fu fo
        = (Val.str jid, store ++ [[("job_id", Val.str jid),
            ("collection_id", handlerCollectionId data),
            ("title", titleOf (data.getD "script" (Val.obj []))),
            ("status", Val.str "PENDING"), ("created_at", Val.time now),
            ("updated_at", Val.time now), ("_id", Val.str fo)]]) := by
      simp [create_job, docGetV, pyOr, alistGet, alistSet, Val.truthy, hne]
    have hpC : matchStrK "job_id" jid [("job_id", Val.str jid),
        ("collection_id", handlerCollectionId data),
        ("title", titleOf (data.getD "script" (Val.obj []))),
        ("status", Val.str "PENDING"), ("created_at", Val.time now),
        ("updated_at", Val.time now), ("_id", Val.str fo)] = true := by
      simp [matchStrK, alistGet]
    have hupd := updateFirst_append_last (matchStrK "job_id" jid)
      (applyUd (scriptReadyUd (buildUpdateData nd jid (handlerCollectionId data)
        ((data.getD "script" (Val.obj [])).getD "metadata" (Val.obj [])) now) now))
      store _ ((findFirst_eq_none _ _).mp hj1) hpC
    have hfin : update_job_from_script_ready (store ++ [[("job_id", Val.str jid),
        ("collection_id", handlerCollectionId data),
        ("title", titleOf (data.getD "script" (Val.obj []))),
        ("status", Val.str "PENDING"), ("created_at", Val.time now),
        ("updated_at", Val.time now), ("_id", Val.str fo)]]) jid
        (buildUpdateData nd jid (handlerCollectionId data)
          ((data.getD "script" (Val.obj [])).getD "metadata" (Val.obj [])) now) now
        = store ++ [applyUd (scriptReadyUd (buildUpdateData nd jid (handlerCollectionId data)
            ((data.getD "script" (Val.obj [])).getD "metadata" (Val.obj [])) now) now)
            [("job_id", Val.str jid), ("collection_id", handlerCollectionId data),
             ("title", titleOf (data.getD "script" (Val.obj []))),
             ("status", Val.str "PENDING"), ("created_at", Val.time now),
             ("updated_at", Val.time now), ("_id", Val.str fo)]] := by
      simp [update_job_from_script_ready, hupd]
    simp only [handle_script_ready, hobj, Bool.not_true, Bool.false_eq_true, if_false, hjid,
      Val.pyStr, htr, hnorm, hmiss, hcreate, Bool.not_eq_true]
    simpa using hfin
  · rw [alistGet_srf _ _ _ _ (by decide) (by decide) (by decide) (by decide) (by decide)]
    simp [alistGet]
  · rw [alistGet_srf _ _ _ _ (by decide) (by decide) (by decide) (by decide) (by decide)]
    simp [alistGet]
  · rw [alistGet_srf _ _ _ _ (by decide) (by decide) (by decide) (by decide) (by decide)]
    simp [alistGet]
  · exact alistGet_applyUd_hit _ _ _ _ (scriptReadyUd_nodup _ now)
      (alistGet_scriptReadyUd_status _ now)
  · rw [alistGet_srf _ _ _ _ (by decide) (by decide) (by decide) (by decide) (by decide)]
    simp [alistGet]
  · intro jd st n u o
    refine ⟨?_, ?_, ?_, ?_⟩
    · intro h1
      simp [create_job, pyOr, h1]
    · intro h1 h2
      simp [create_job, pyOr, h1, h2]
    · intro h1 h2 h3
      simp [create_job, pyOr, h1, h2, h3]
    · intro h1 h2 h3
      simp [create_job, pyOr, h1, h2, h3]

/-- Witness instantiating `C3_lazy_create_then_reconcile` on a concrete
event and empty store. -/
theorem C3_lazy_create_then_reconcile_witness :
    ∃ D, (handle_script_ready cexReadyEvent [] 4 "u2" "eeeeeeeeeeeeeeeeeeeeeeee").1 = [] ++ [D] ∧
      alistGet "status" D = some (Val.str "READY") ∧
      alistGet "job_id" D = some (Val.str "job-1") := by
  obtain ⟨C, D, h1, h2, h3, h4, h5, h6, h7, h8, h9, h10, h11⟩ :=
    C3_lazy_create_then_reconcile cexReadyEvent [] 4 "u2" "eeeeeeeeeeeeeeeeeeeeeeee" "job-1"
      ⟨Val.arr [Val.obj [("scene_id", Val.str "job-1_scene_1"),
          ("script", Val.str "Hello world"), ("visual", Val.str "")]],
       Val.str "Hello world", Val.str "", [], Val.arr [], Val.arr []⟩
      rfl rfl (by decide) rfl rfl
  exact ⟨D, h4, h9, h6⟩

/-- C4: for a decoded mapping payload with no resolvable job_id, the handler
publishes exactly one `script_generated` progress notification (status
"completed", progress 100) to `collection:<collection_id>` when a truthy
collection_id is present, and touches no job record; with neither
identifier it publishes nothing and touches no record. -/
theorem C4_degraded_collection_path (data : Val) (store : List Doc) (now : Nat)
    (fu fo : String)
    (hobj : data.isObj = true)
    (hnojid : handlerJobId data = Val.null) :
    ((handlerCollectionId data).truthy = true →
      handle_script_ready data store now fu fo =
        (store, [("collection:" ++ (handlerCollectionId data).pyStr,
                  Val.obj [("type", Val.str "script_generated"),
                           ("collection_id", handlerCollectionId data),
                           ("status", Val.str "completed"),
                           ("progress", Val.int 100)])])) ∧
    ((handlerCollectionId data).truthy = false →
      handle_script_ready data store now fu fo = (store, [])) := by
  constructor
  · intro hc
    have hnull : Val.truthy Val.null = false := rfl
    simp [handle_script_ready, hobj, hnojid, hnull, hc, degradedMsg]
  · intro hc
    have hnull : Val.truthy Val.null = false := rfl
    simp [handle_script_ready, hobj, hnojid, hnull, hc]

/-- An event payload carrying only a collection_id. -/
def cexCollectionOnly : Val := Val.obj [("collection_id", Val.str "col-99")]

/-- Witness instantiating `C4_degraded_collection_path` on the
collection-only payload. -/
theorem C4_degraded_collection_path_witness :
    handle_script_ready cexCollectionOnly [] 2 "u3" "ffffffffffffffffffffffff" =
      ([], [("collection:col-99",
             Val.obj [("type", Val.str "script_generated"),
                      ("collection_id", Val.str "col-99"),
                      ("status", Val.str "completed"),
                      ("progress", Val.int 100)])]) := by
  have h := (C4_degraded_collection_path cexCollectionOnly [] 2 "u3"
    "ffffffffffffffffffffffff" rfl rfl).1 rfl
  exact h

/-- C5 (counterexample): for a payload whose only identifier is a
collection_id, the reconciliation handler resolves NO job_id (the degraded
path), while the broker's dispatch does fall back to the collection_id —
the claimed three-step resolution with string coercion does not describe
the handler. -/
theorem C5_counterexample :
    handlerJobId cexCollectionOnly = Val.null ∧
    brokerJobId cexCollectionOnly = Val.str "col-99" ∧
    Val.null ≠ Val.str "col-99" :=
  ⟨rfl, rfl, fun h => Val.noConfusion h⟩

/-- C5 (amended): the consumer's dispatch (message_broker.py) resolves the
job_id from `script._id`, then top-level `script_id`, then top-level
`collection_id`, first truthy wins, and uses the winning value verbatim
with no coercion; the reconciliation handler (main.py) resolves only from
`script._id` then `script_id` — collection_id is never a job_id source
there — and uses a winning string verbatim (the 36-character/hyphen check
selects the verbatim branch, and `str()` coercion is the identity on the
remaining strings), while a truthy non-string winner is coerced with
`str()`. -/
theorem C5_id_resolution :
    (∀ body : Val, (brokerS1 body).truthy = true → brokerJobId body = brokerS1 body) ∧
    (∀ body : Val, (brokerS1 body).truthy = false → (body.get "script_id").truthy = true →
      brokerJobId body = body.get "script_id") ∧
    (∀ body : Val, (brokerS1 body).truthy = false → (body.get "script_id").truthy = false →
      brokerJobId body = body.get "collection_id") ∧
    (∀ data : Val, (handlerScriptId data).truthy = false → handlerJobId data = Val.null) ∧
    (∀ (data : Val) (s : String), handlerScriptId data = Val.str s →
      handlerJobId data = if s = "" then Val.null else Val.str s) ∧
    (∀ (data : Val) (v : Val), handlerScriptId data = v → v.truthy = true → v.isStr = false →
      handlerJobId data = Val.str v.pyStr) := by
  refine ⟨?_, ?_, ?_, ?_, ?_, ?_⟩
  · intro body h
    simp [brokerJobId, h]
  · intro body h1 h2
    simp [brokerJobId, h1, h2]
  · intro body h1 h2
    simp [brokerJobId, h1, h2]
  · intro data h
    simp [handlerJobId, h]
  · intro data s h
    by_cases he : s = ""
    · subst he
      simp [handlerJobId, h, Val.truthy]
    · have htr : Val.truthy (Val.str s) = true := by simp [Val.truthy, he]
      by_cases hsh : (s.length == 36 || s.toList.contains '-') = true
      · simp [handlerJobId, h, htr, hsh, he, Val.pyStr]
      · simp only [Bool.not_eq_true] at hsh
        simp [handlerJobId, h, htr, hsh, he, Val.pyStr]
  · intro data v h htr hstr
    cases v <;> simp_all [handlerJobId, Val.isStr]

/-- Witness instantiating `C5_id_resolution` on concrete payloads. -/
theorem C5_id_resolution_witness :
    brokerJobId cexCollectionOnly = Val.str "col-99" ∧
    handlerJobId cexReadyEvent = Val.str "job-1" := by
  have h1 := C5_id_resolution.2.2.1 cexCollectionOnly rfl rfl
  have h2 := C5_id_resolution.2.2.2.2.1 cexReadyEvent "job-1" rfl
  constructor
  · simpa using h1
  · simpa using h2

/-- An event whose script text lives only in `script.content`. -/
def cexContentEvent : Val :=
  Val.obj [("script", Val.obj [("_id", Val.str "abc-1"), ("content", Val.str "Hello")])]

/-- C6 (counterexample): with `script.scenes` absent and the script text
found only through the `script.content` fallback, normalization resolves a
non-empty script_text yet synthesizes NO scene — the scenes list stays
empty, contradicting the claim that a non-empty fallback-resolved text
yields exactly one synthesized scene. -/
theorem C6_counterexample :
    (normEvent cexContentEvent "abc-1").map (fun nd => (nd.scenes, nd.script_text))
      = some (Val.arr [], Val.str "Hello") ∧ "Hello" ≠ "" :=
  ⟨rfl, by decide⟩

/-- C6 (amended): the single scene is synthesized only from
`script.script_text` itself — the synthesis check runs BEFORE the fallback
to `script.content` / top-level `content` / top-level `text`, so a text
resolved only by the fallback never produces a scene; when `script.scenes`
is present and non-empty it is passed through unchanged; when
`script.script_text` is empty the scenes value is passed through unchanged
and the script text is the fallback chain's value. -/
theorem C6_scene_synthesis (script_data data : Val) (jid : String) (scenes0 st0 : Val)
    (hobj : script_data.isObj = true)
    (hs : script_data.getD "scenes" (Val.arr []) = scenes0)
    (ht : script_data.getD "script_text" (Val.str "") = st0)
    (hsl : st0.sliceable = true) (hln : scenes0.hasLen = true) :
    (st0.truthy = true → scenes0.truthy = false →
      sceneTextPart script_data data jid =
        some (Val.arr [Val.obj [("scene_id", Val.str (jid ++ "_scene_1")),
          ("script", st0),
          ("visual", script_data.getD "visual_description" (Val.str ""))]], st0)) ∧
    (scenes0.truthy = true → ∀ sc st1,
      sceneTextPart script_data data jid = some (sc, st1) → sc = scenes0) ∧
    (st0.truthy = false → ∀ sc st1,
      sceneTextPart script_data data jid = some (sc, st1) → sc = scenes0 ∧
        st1 = pyOr (script_data.get "content")
          (pyOr (data.get "content") (pyOr (data.get "text") (Val.str "")))) := by
  refine ⟨?_, ?_, ?_⟩
  · intro h1 h2
    simp [sceneTextPart, hobj, hs, ht, hsl, hln, h1, h2]
  · intro h1 sc st1 hres
    have hsy : (!scenes0.truthy && st0.truthy) = false := by simp [h1]
    by_cases h2 : st0.truthy
    · simp [sceneTextPart, hobj, hs, ht, hsl, hln, h1, h2] at hres
      exact hres.1.symm
    · simp only [Bool.not_eq_true] at h2
      by_cases h3 : (pyOr (script_data.get "content")
          (pyOr (data.get "content") (pyOr (data.get "text") (Val.str "")))).sliceable
      · simp [sceneTextPart, hobj, hs, ht, hsl, hln, h1, h2, h3] at hres
        exact hres.1.symm
      · simp only [Bool.not_eq_true] at h3
        simp [sceneTextPart, hobj, hs, ht, hsl, hln, h1, h2, h3] at hres
  · intro h1 sc st1 hres
    have hsy : (!scenes0.truthy && st0.truthy) = false := by simp [h1]
    by_cases h3 : (pyOr (script_data.get "content")
        (pyOr (data.get "content") (pyOr (data.get "text") (Val.str "")))).sliceable
    · simp [sceneTextPart, hobj, hs, ht, hsl, hln, hsy, h1, h3] at hres
      exact ⟨hres.1.symm, hres.2.symm⟩
    · simp only [Bool.not_eq_true] at h3
      simp [sceneTextPart, hobj, hs, ht, hsl, hln, hsy, h1, h3] at hres

/-- Witness instantiating `C6_scene_synthesis` on a script with text and no
scenes. -/
theorem C6_scene_synthesis_witness :
    sceneTextPart (Val.obj [("script_text", Val.str "Hi")]) (Val.obj []) "j"
      = some (Val.arr [Val.obj [("scene_id", Val.str "j_scene_1"),
          ("script", Val.str "Hi"), ("visual", Val.str "")]], Val.str "Hi") := by
  have h := (C6_scene_synthesis (Val.obj [("script_text", Val.str "Hi")]) (Val.obj []) "j"
    (Val.arr []) (Val.str "Hi") rfl rfl rfl rfl rfl).1 (by decide) rfl
  simpa using h

theorem mem_keys_alistSet {α : Type} (x k : String) (v : α) (d : List (String × α))
    (h : x ∈ (alistSet k v d).map Prod.fst) : x ∈ d.map Prod.fst ∨ x = k := by
  induction d with
  | nil => simp [alistSet] at h; exact Or.inr h
  | cons p t ih =>
    by_cases hpk : p.1 = k
    · have hb : (p.1 == k) = true := beq_iff_eq.mpr hpk
      simp only [alistSet, hb, if_true, List.map_cons] at h
      rcases List.mem_cons.mp h with hx | hx
      · exact Or.inr hx
      · exact Or.inl (by simp [hx])
    · have hb : (p.1 == k) = false := beq_eq_false_iff_ne.mpr hpk
      simp only [alistSet, hb, Bool.false_eq_true, if_false, List.map_cons] at h
      rcases List.mem_cons.mp h with hx | hx
      · exact Or.inl (by simp [hx])
      · rcases ih hx with hh | hh
        · exact Or.inl (by simp [hh])
        · exact Or.inr hh

theorem nodupKeys_alistSet {α : Type} (k : String) (v : α) (d : List (String × α))
    (h : (d.map Prod.fst).Nodup) : ((alistSet k v d).map Prod.fst).Nodup := by
  induction d with
  | nil => simp [alistSet]
  | cons p t ih =>
    by_cases hpk : p.1 = k
    · have hb : (p.1 == k) = true := beq_iff_eq.mpr hpk
      simp only [alistSet, hb, if_true, List.map_cons, List.nodup_cons]
      constructor
      · rw [← hpk]
        exact (List.nodup_cons.mp h).1
      · exact (List.nodup_cons.mp h).2
    · have hb : (p.1 == k) = false := beq_eq_false_iff_ne.mpr hpk
      simp only [alistSet, hb, Bool.false_eq_true, if_false, List.map_cons, List.nodup_cons]
      constructor
      · intro hmem
        rcases mem_keys_alistSet _ _ _ _ hmem with hh | hh
        · exact (List.nodup_cons.mp h).1 hh
        · exact hpk hh
      · exact ih (List.nodup_cons.mp h).2

theorem mem_keys_applyUd (ud d : Doc) (x : String)
    (h : x ∈ (applyUd ud d).map Prod.fst) : x ∈ d.map Prod.fst ∨ x ∈ ud.map Prod.fst := by
  induction ud generalizing d with
  | nil => exact Or.inl h
  | cons p t ih =>
    have h' : x ∈ (applyUd t (alistSet p.1 p.2 d)).map Prod.fst := h
    rcases ih (alistSet p.1 p.2 d) h' with hh | hh
    · rcases mem_keys_alistSet _ _ _ _ hh with hx | hx
      · exact Or.inl hx
      · exact Or.inr (by simp [hx])
    · exact Or.inr (by simp [hh])

theorem nodupKeys_applyUd (ud d : Doc) (h : (d.map Prod.fst).Nodup) :
    ((applyUd ud d).map Prod.fst).Nodup := by
  induction ud generalizing d with
  | nil => exact h
  | cons p t ih => exact ih (alistSet p.1 p.2 d) (nodupKeys_alistSet p.1 p.2 d h)

theorem statusUd_nodup (status : String) (dat : Option Doc) (now : Nat) :
    ((statusUd status dat now).map Prod.fst).Nodup := by
  cases dat with
  | none => simp [statusUd]
  | some du =>
    show ((applyUd du [("status", Val.str status), ("updated_at", Val.time now)]).map
      Prod.fst).Nodup
    exact nodupKeys_applyUd du _ (by simp)

/-- The store used to exhibit that `update_job_status` never matches the
`uuid` field. -/
def cexUuidStore : List Doc :=
  [[("_id", Val.str "aaaaaaaaaaaaaaaaaaaaaaaa"), ("uuid", Val.str "u-1"),
    ("job_id", Val.str "other"), ("status", Val.str "PENDING")]]

/-- C7 (counterexample): a record reachable through its `uuid` alias (as
`get_job` demonstrates) is NOT found by `update_job_status` — the call
leaves the store unchanged instead of updating the record's status, so the
claimed fourth (`uuid`) lookup strategy does not exist in
`update_job_status`. -/
theorem C7_counterexample :
    update_job_status cexUuidStore "u-1" "READY" none 9 = cexUuidStore ∧
    alistGet "uuid" cexUuidStore.headI = some (Val.str "u-1") ∧
    (get_job cexUuidStore "u-1").isSome = true ∧
    "READY" ≠ "PENDING" :=
  ⟨rfl, rfl, rfl, by decide⟩

/-- C7 (amended): `update_job_status` resolves the lookup id against, in
order, the `job_id` field, the `_id` storage key (attempted only when the
id is a syntactically valid ObjectId), and the legacy `id` field — the
`uuid` field is never consulted; on a match it `$set`-merges the given
status, a refreshed `updated_at` and any extra fields, leaving every other
field of the record untouched; missing on all three strategies leaves the
store unchanged (a logged, non-fatal miss — the function returns normally). -/
theorem C7_update_status_resolution (store : List Doc) (jid status : String)
    (dat : Option Doc) (now : Nat) :
    (findFirst (matchStrK "job_id" jid) store = none →
      (isValidObjectId jid = true → findFirst (matchStrK "_id" jid) store = none) →
      findFirst (matchStrK "id" jid) store = none →
      update_job_status store jid status dat now = store) ∧
    (∀ d₀, findFirst (matchStrK "job_id" jid) store = some d₀ →
      ∃ pre post, store = pre ++ d₀ :: post ∧
        update_job_status store jid status dat now
          = pre ++ applyUd (statusUd status dat now) d₀ :: post) ∧
    (∀ d₀, findFirst (matchStrK "job_id" jid) store = none → isValidObjectId jid = true →
      findFirst (matchStrK "_id" jid) store = some d₀ →
      ∃ pre post, store = pre ++ d₀ :: post ∧
        update_job_status store jid status dat now
          = pre ++ applyUd (statusUd status dat now) d₀ :: post) ∧
    (∀ d₀, findFirst (matchStrK "job_id" jid) store = none →
      (isValidObjectId jid = true → findFirst (matchStrK "_id" jid) store = none) →
      findFirst (matchStrK "id" jid) store = some d₀ →
      ∃ pre post, store = pre ++ d₀ :: post ∧
        update_job_status store jid status dat now
          = pre ++ applyUd (statusUd status dat now) d₀ :: post) ∧
    (∀ (d : Doc) (k : String), k ≠ "status" → k ≠ "updated_at" →
      (∀ du, dat = some du → k ∉ du.map Prod.fst) →
      alistGet k (applyUd (statusUd status dat now) d) = alistGet k d) ∧
    (dat = none → ∀ d : Doc,
      alistGet "status" (applyUd (statusUd status none now) d) = some (Val.str status) ∧
      alistGet "updated_at" (applyUd (statusUd status none now) d) = some (Val.time now)) ∧
    (∀ (d du : Doc) (k : String) (v : Val), dat = some du → (du.map Prod.fst).Nodup →
      (k, v) ∈ du →
      alistGet k (applyUd (statusUd status (some du) now) d) = some v) := by
  refine ⟨?_, ?_, ?_, ?_, ?_, ?_, ?_⟩
  · intro h1 h2 h3
    have r1 := updateFirst_eq_false (matchStrK "job_id" jid)
      (applyUd (statusUd status dat now)) store ((findFirst_eq_none _ _).mp h1)
    have r3 := updateFirst_eq_false (matchStrK "id" jid)
      (applyUd (statusUd status dat now)) store ((findFirst_eq_none _ _).mp h3)
    by_cases hv : isValidObjectId jid
    · have r2 := updateFirst_eq_false (matchStrK "_id" jid)
        (applyUd (statusUd status dat now)) store ((findFirst_eq_none _ _).mp (h2 hv))
      simp [update_job_status, r1, hv, r2, r3]
    · simp only [Bool.not_eq_true] at hv
      simp [update_job_status, r1, hv, r3]
  · intro d₀ h1
    obtain ⟨pre, post, hsplit, hpre, hu⟩ :=
      updateFirst_of_findFirst (matchStrK "job_id" jid) (applyUd (statusUd status dat now))
        store d₀ h1
    refine ⟨pre, post, hsplit, ?_⟩
    simp [update_job_status, hu]
  · intro d₀ h1 hv h2
    obtain ⟨pre, post, hsplit, hpre, hu⟩ :=
      updateFirst_of_findFirst (matchStrK "_id" jid) (applyUd (statusUd status dat now))
        store d₀ h2
    refine ⟨pre, post, hsplit, ?_⟩
    have r1 := updateFirst_eq_false (matchStrK "job_id" jid)
      (applyUd (statusUd status dat now)) store ((findFirst_eq_none _ _).mp h1)
    simp [update_job_status, r1, hv, hu]
  · intro d₀ h1 h2 h3
    obtain ⟨pre, post, hsplit, hpre, hu⟩ :=
      updateFirst_of_findFirst (matchStrK "id" jid) (applyUd (statusUd status dat now))
        store d₀ h3
    refine ⟨pre, post, hsplit, ?_⟩
    have r1 := updateFirst_eq_false (matchStrK "job_id" jid)
      (applyUd (statusUd status dat now)) store ((findFirst_eq_none _ _).mp h1)
    by_cases hv : isValidObjectId jid
    · have r2 := updateFirst_eq_false (matchStrK "_id" jid)
        (applyUd (statusUd status dat now)) store ((findFirst_eq_none _ _).mp (h2 hv))
      simp [update_job_status, r1, hv, r2, hu]
    · simp only [Bool.not_eq_true] at hv
      simp [update_job_status, r1, hv, hu]
  · intro d k hk1 hk2 hk3
    apply alistGet_applyUd_of_ne
    intro p hp he
    cases dat with
    | none =>
      simp only [statusUd, List.mem_cons, List.not_mem_nil, or_false] at hp
      rcases hp with hp | hp
      · rw [hp] at he
        exact hk1 he.symm
      · rw [hp] at he
        exact hk2 he.symm
    | some du =>
      have hmem : p.1 ∈ (statusUd status (some du) now).map Prod.fst :=
        List.mem_map_of_mem Prod.fst hp
      have : p.1 ∈ ([("status", Val.str status),
          ("updated_at", Val.time now)] : Doc).map Prod.fst ∨ p.1 ∈ du.map Prod.fst :=
        mem_keys_applyUd du _ p.1 hmem
      rcases this with hh | hh
      · simp only [List.map_cons, List.map_nil, List.mem_cons, List.not_mem_nil,
          or_false, List.mem_singleton] at hh
        rcases hh with hh | hh
        · rw [← he, hh] at hk1; simp at hk1
        · rw [← he, hh] at hk2; simp at hk2
      · rw [he] at hh
        exact hk3 du rfl hh
  · intro hdat d
    constructor
    · show alistGet "status"
        (applyUd [("status", Val.str status), ("updated_at", Val.time now)] d) = _
      show alistGet "status"
        (alistSet "updated_at" (Val.time now) (alistSet "status" (Val.str status) d)) = _
      rw [alistGet_alistSet_ne _ _ _ _ (by decide)]
      exact alistGet_alistSet_self _ _ _
    · show alistGet "updated_at"
        (alistSet "updated_at" (Val.time now) (alistSet "status" (Val.str status) d)) = _
      exact alistGet_alistSet_self _ _ _
  · intro d du k v hdat hnod hmem
    apply alistGet_applyUd_hit _ _ _ _ (statusUd_nodup status (some du) now)
    show alistGet k (applyUd du [("status", Val.str status), ("updated_at", Val.time now)])
      = some v
    exact alistGet_applyUd_mem du _ k v hnod hmem

/-- Witness instantiating `C7_update_status_resolution` on a concrete miss
and a concrete `job_id`-field hit. -/
theorem C7_update_status_resolution_witness :
    update_job_status [[("title", Val.str "t")]] "j" "READY" none 1
      = [[("title", Val.str "t")]] ∧
    ∃ pre post, [[("job_id", Val.str "j")]] = pre ++ [("job_id", Val.str "j")] :: post ∧
      update_job_status [[("job_id", Val.str "j")]] "j" "READY" none 1
        = pre ++ applyUd (statusUd "READY" none 1) [("job_id", Val.str "j")] :: post := by
  have h1 := (C7_update_status_resolution [[("title", Val.str "t")]] "j" "READY" none 1).1
    rfl (fun _ => rfl) rfl
  have h2 := (C7_update_status_resolution [[("job_id", Val.str "j")]] "j" "READY" none 1).2.1
    [("job_id", Val.str "j")] rfl
  exact ⟨h1, h2⟩

theorem alistGet_not_mem_keys {α : Type} (k : String) (d : List (String × α))
    (h : k ∉ d.map Prod.fst) : alistGet k d = none := by
  induction d with
  | nil => rfl
  | cons p t ih =>
    have hne : p.1 ≠ k := fun he => h (by simp [he])
    have hb : (p.1 == k) = false := beq_eq_false_iff_ne.mpr hne
    simp only [alistGet, hb, Bool.false_eq_true, if_false]
    exact ih (fun hm => h (by simp [hm]))

theorem alistGet_alistDel_self {α : Type} (k : String) (d : List (String × α))
    (h : (d.map Prod.fst).Nodup) : alistGet k (alistDel k d) = none := by
  induction d with
  | nil => rfl
  | cons p t ih =>
    by_cases hpk : p.1 = k
    · have hb : (p.1 == k) = true := beq_iff_eq.mpr hpk
      simp only [alistDel, hb, if_true]
      apply alistGet_not_mem_keys
      rw [← hpk]
      exact (List.nodup_cons.mp h).1
    · have hb : (p.1 == k) = false := beq_eq_false_iff_ne.mpr hpk
      have hb' : (p.1 == k) = false := hb
      simp only [alistDel, hb, Bool.false_eq_true, if_false, alistGet, hb']
      exact ih (List.nodup_cons.mp h).2

/-- C8: `_send_update` delivers the message, in registration order, to every
connection under the topic whose send succeeds; a topic with no entry is a
no-op returning unchanged state (nothing raised — the function is total);
failing connections are pruned while delivery continues to the rest; and
when the topic's only connection fails its send, the topic key is absent
from the registry afterwards and nothing is delivered. -/
theorem C8_send_update_fanout (ok : Nat → Bool) (reg : Registry) (key : String) (msg : Val)
    (hnd : (reg.map Prod.fst).Nodup) :
    (alistGet key reg = none → sendUpdate ok reg key msg = (reg, [])) ∧
    (∀ conns, alistGet key reg = some conns →
      (sendUpdate ok reg key msg).2 = (conns.filter ok).map (fun c => (c, msg)) ∧
      (∀ c, c ∈ conns → ok c = true → (c, msg) ∈ (sendUpdate ok reg key msg).2) ∧
      ((∀ c ∈ conns, ok c = true) →
        (sendUpdate ok reg key msg).2 = conns.map (fun c => (c, msg))) ∧
      ((conns.filter ok).isEmpty = false →
        alistGet key (sendUpdate ok reg key msg).1 = some (conns.filter ok)) ∧
      ((conns.filter ok).isEmpty = true →
        alistGet key (sendUpdate ok reg key msg).1 = none)) ∧
    (∀ c, alistGet key reg = some [c] → ok c = false →
      alistGet key (sendUpdate ok reg key msg).1 = none ∧
      (sendUpdate ok reg key msg).2 = []) := by
  refine ⟨?_, ?_, ?_⟩
  · intro h
    simp [sendUpdate, h]
  · intro conns hg
    refine ⟨?_, ?_, ?_, ?_, ?_⟩
    · by_cases he : (conns.filter ok).isEmpty
      · simp [sendUpdate, hg, he]
      · simp only [Bool.not_eq_true] at he
        simp [sendUpdate, hg, he]
    · intro c hc hok
      have hmem : c ∈ conns.filter ok := List.mem_filter.mpr ⟨hc, hok⟩
      by_cases he : (conns.filter ok).isEmpty
      · rw [List.isEmpty_iff] at he
        rw [he] at hmem
        simp at hmem
      · simp only [Bool.not_eq_true] at he
        simp only [sendUpdate, hg, he, Bool.false_eq_true, if_false]
        exact List.mem_map_of_mem _ hmem
    · intro hall
      have hfe : conns.filter ok = conns := List.filter_eq_self.mpr hall
      simp only [sendUpdate, hg, hfe]
      split <;> rfl
    · intro he
      simp only [sendUpdate, hg, he, Bool.false_eq_true, if_false]
      exact alistGet_alistSet_self _ _ _
    · intro he
      simp only [sendUpdate, hg, he, if_true]
      exact alistGet_alistDel_self _ _ hnd
  · intro c hg hc
    have he : (([c] : List Nat).filter ok).isEmpty = true := by
      simp [List.filter, hc]
    constructor
    · simp only [sendUpdate, hg, he, if_true]
      exact alistGet_alistDel_self _ _ hnd
    · simp [sendUpdate, hg, he, List.filter, hc]

/-- Witness instantiating `C8_send_update_fanout`: an empty-topic no-op and
a sole failing subscriber whose topic disappears. -/
theorem C8_send_update_fanout_witness :
    sendUpdate (fun _ => false) [("job:X", [2]), ("other", [5])] "none" (Val.str "m")
      = ([("job:X", [2]), ("other", [5])], []) ∧
    alistGet "job:X" (sendUpdate (fun _ => false) [("job:X", [2]), ("other", [5])] "job:X"
      (Val.str "m")).1 = none ∧
    (sendUpdate (fun _ => false) [("job:X", [2]), ("other", [5])] "job:X" (Val.str "m")).2
      = [] := by
  have h1 := (C8_send_update_fanout (fun _ => false) [("job:X", [2]), ("other", [5])]
    "none" (Val.str "m") (by decide)).1 rfl
  have h2 := (C8_send_update_fanout (fun _ => false) [("job:X", [2]), ("other", [5])]
    "job:X" (Val.str "m") (by decide)).2.2 2 rfl rfl
  exact ⟨h1, h2.1, h2.2⟩

/-- C9: callback dispatch for a resolved job id tries an exact-key callback,
then the first registered callback (in registration order) whose key and
the resolved id contain one another as substrings, then the default
callback; with no registered match and no default, no handler is selected. -/
theorem C9_dispatch_tiers (cbs : List (String × Nat)) (dflt : Option Nat) (jid : String) :
    (∀ c, alistGet jid cbs = some c → dispatchCallback cbs dflt jid = some c) ∧
    (alistGet jid cbs = none → ∀ k c,
      findFirst (fun p => strIn p.1 jid || strIn jid p.1) cbs = some (k, c) →
      dispatchCallback cbs dflt jid = some c) ∧
    (alistGet jid cbs = none →
      findFirst (fun p => strIn p.1 jid || strIn jid p.1) cbs = none →
      dispatchCallback cbs dflt jid = dflt) ∧
    (alistGet jid cbs = none →
      findFirst (fun p => strIn p.1 jid || strIn jid p.1) cbs = none → dflt = none →
      dispatchCallback cbs dflt jid = none) := by
  refine ⟨?_, ?_, ?_, ?_⟩
  · intro c h
    simp [dispatchCallback, h]
  · intro h k c hf
    simp [dispatchCallback, h, hf]
  · intro h hf
    simp [dispatchCallback, h, hf]
  · intro h hf hd
    simp [dispatchCallback, h, hf, hd]

/-- Witness instantiating `C9_dispatch_tiers`: a substring match selects the
first partially matching registered callback. -/
theorem C9_dispatch_tiers_witness :
    dispatchCallback [("job", 1), ("xyz", 2)] (some 9) "job-1" = some 1 ∧
    dispatchCallback [("xyz", 2)] (some 9) "job-1" = some 9 := by
  have h1 := (C9_dispatch_tiers [("job", 1), ("xyz", 2)] (some 9) "job-1").2.1 rfl "job" 1 rfl
  have h2 := (C9_dispatch_tiers [("xyz", 2)] (some 9) "job-1").2.2.1 rfl rfl
  exact ⟨h1, h2⟩

/-- C10: for a subscription whose job record is READY but lacks any of the
three directly indexed snapshot keys, the initial push raises after only
the `job_status` message, the exception is absorbed at the endpoint level
(the endpoint function returns normally with the closed flag set), the
`job_complete` snapshot is never delivered, and a closed connection — one
whose sends fail — receives no subsequent fan-out deliveries either. -/
theorem C10_ready_snapshot_raises (store : List Doc) (jid : String) (r : Doc) (idv : Val)
    (hget : get_job store jid = some r)
    (hid : alistGet "id" r = some idv)
    (hstatus : alistGet "status" r = some (Val.str "READY"))
    (hmissing : alistGet "script_text" r = none ∨ alistGet "audio_url" r = none ∨
      alistGet "image_urls" r = none) :
    websocketEndpointInit store jid
      = ([Val.obj [("type", Val.str "job_status"), ("job_id", idv),
                   ("status", Val.str "READY")]], true) ∧
    (∀ (ok : Nat → Bool) (reg : Registry) (key : String) (msg : Val) (c : Nat),
      ok c = false → (c, msg) ∉ (sendUpdate ok reg key msg).2) := by
  constructor
  · rcases h1 : alistGet "script_text" r with _ | t
    · simp [websocketEndpointInit, wsInitialPush, hget, hid, hstatus, isReadyVal, h1]
    · rcases h2 : alistGet "audio_url" r with _ | a
      · simp [websocketEndpointInit, wsInitialPush, hget, hid, hstatus, isReadyVal, h1, h2]
      · rcases h3 : alistGet "image_urls" r with _ | u
        · simp [websocketEndpointInit, wsInitialPush, hget, hid, hstatus, isReadyVal,
            h1, h2, h3]
        · exfalso
          rcases hmissing with h | h | h <;> simp_all
  · intro ok reg key msg c hc hmem
    rcases hg : alistGet key reg with _ | conns
    · simp only [sendUpdate, hg] at hmem
      simp at hmem
    · by_cases he : (conns.filter ok).isEmpty
      · simp only [sendUpdate, hg, he, if_true] at hmem
        rcases List.mem_map.mp hmem with ⟨x, hx, hxe⟩
        have hokx : ok x = true := (List.mem_filter.mp hx).2
        have : x = c := congrArg Prod.fst hxe
        rw [this] at hokx
        rw [hokx] at hc
        exact Bool.noConfusion hc
      · simp only [Bool.not_eq_true] at he
        simp only [sendUpdate, hg, he, Bool.false_eq_true, if_false] at hmem
        rcases List.mem_map.mp hmem with ⟨x, hx, hxe⟩
        have hokx : ok x = true := (List.mem_filter.mp hx).2
        have : x = c := congrArg Prod.fst hxe
        rw [this] at hokx
        rw [hokx] at hc
        exact Bool.noConfusion hc

/-- A READY record lacking all three flat snapshot fields. -/
def cexReadyNoFlat : Doc :=
  [("_id", Val.str "cccccccccccccccccccccccc"), ("job_id", Val.str "j9"),
   ("status", Val.str "READY")]

/-- Witness instantiating `C10_ready_snapshot_raises` on a READY record
without flat fields. -/
theorem C10_ready_snapshot_raises_witness :
    websocketEndpointInit [cexReadyNoFlat] "j9"
      = ([Val.obj [("type", Val.str "job_status"),
                   ("job_id", Val.str "cccccccccccccccccccccccc"),
                   ("status", Val.str "READY")]], true) ∧
    (∀ (ok : Nat → Bool) (reg : Registry) (key : String) (msg : Val) (c : Nat),
      ok c = false → (c, msg) ∉ (sendUpdate ok reg key msg).2) :=
  C10_ready_snapshot_raises [cexReadyNoFlat] "j9" (renderJob cexReadyNoFlat)
    (Val.str "cccccccccccccccccccccccc") rfl rfl rfl (Or.inl rfl)
